import Mathlib

/-!
Verification development for the gomenarr media-acquisition orchestrator.

The Go sources are shallowly embedded: pure helpers become Lean functions
over `List Char` / `String`, `int64` becomes `Int` (no arithmetic here can
overflow 64 bits on the inputs the program constructs), `float64` score
arithmetic becomes `ℚ` (every branch that matters produces dyadic or exact
values, and the proved bounds are robust to the sub-ulp error of the float
evaluation), and the stateful controllers become explicit state-passing
functions over record types mirroring the Go structs.  External services
(tracker, indexer, download client) are passed in as explicit environment
records, mirroring the interfaces in `internal/core/ports`.
-/

namespace Gomenarr

/-! ## Go string primitives (ASCII-faithful embeddings of the `strings` stdlib) -/

/-- `old` is a prefix of the second list (`strings.HasPrefix`). -/
def hasPfx : List Char → List Char → Bool
  | [], _ => true
  | _ :: _, [] => false
  | a :: as, b :: bs => a = b && hasPfx as bs

/-- `strings.Contains` on rune lists: some suffix of `hay` starts with `needle`. -/
def containsSub (needle : List Char) : List Char → Bool
  | [] => hasPfx needle []
  | c :: rest => hasPfx needle (c :: rest) || containsSub needle rest

/-- `strings.Contains` on strings. -/
def goContains (s sub : String) : Bool := containsSub sub.toList s.toList

/-- ASCII uppercase of a rune list (`strings.ToUpper` restricted to ASCII). -/
def listToUpper (l : List Char) : List Char := l.map Char.toUpper

/-- ASCII lowercase of a rune list (`strings.ToLower` restricted to ASCII). -/
def listToLower (l : List Char) : List Char := l.map Char.toLower

/-- `strings.ToUpper` on strings (ASCII). -/
def goToUpper (s : String) : String := String.mk (listToUpper s.toList)

/-- `strings.ToLower` on strings (ASCII). -/
def goToLower (s : String) : String := String.mk (listToLower s.toList)

/-- Whitespace class of Go (`unicode.IsSpace` on ASCII / RE2 white space). -/
def goIsSpace (c : Char) : Bool :=
  c = ' ' || c = '\t' || c = '\n' || c = '\r' || c.toNat = 11 || c.toNat = 12

/-- `strings.TrimSpace` on rune lists. -/
def trimSpaceList (l : List Char) : List Char :=
  ((l.dropWhile goIsSpace).reverse.dropWhile goIsSpace).reverse

/-- `strings.Fields`: split on whitespace runs, dropping empty fields. -/
def fieldsAux (cur : List Char) : List Char → List (List Char)
  | [] => if cur.isEmpty then [] else [cur.reverse]
  | c :: rest =>
    if goIsSpace c then
      if cur.isEmpty then fieldsAux [] rest else cur.reverse :: fieldsAux [] rest
    else fieldsAux (c :: cur) rest

/-- `strings.Fields` on a rune list. -/
def goFields (l : List Char) : List (List Char) := fieldsAux [] l

/-- Numeric value of a digit list (the digits are already validated). -/
def natOfDigits (l : List Char) : Nat :=
  l.foldl (fun acc c => 10 * acc + (c.toNat - 48)) 0

namespace parser

/-! ## Parser (`pkg/parser/parser.go`)

The Go parser uses five RE2 regular expressions.  Each is embedded as a
direct leftmost-match scanner with RE2's leftmost-first alternation and
greedy-with-backtracking quantifier semantics, specialised to the concrete
pattern. -/


/-- Structured release information (`parser.ParsedInfo`). -/
structure ParsedInfo where
  Title : String
  Year : Int
  Season : Int
  Episode : Int
  Resolution : String
  Source : String
  Codec : String
  IsProper : Bool
  IsRepack : Bool
deriving Repr, DecidableEq

/-- RE2 `\w` word-character class (boundary test for `\b`). -/
def wordChar (c : Char) : Bool := c.isAlpha || c.isDigit || c = '_'

/-- Leftmost match of `yearRegex = \b(19|20)\d{2}\b`; returns the matched
four characters.  `prev` is the character before the current position. -/
def findYearAux (prev : Option Char) : List Char → Option (List Char)
  | c1 :: c2 :: c3 :: c4 :: rest =>
    if (match prev with | none => true | some p => !wordChar p)
        && ((c1 = '1' && c2 = '9') || (c1 = '2' && c2 = '0'))
        && c3.isDigit && c4.isDigit
        && (match rest with | [] => true | r :: _ => !wordChar r) then
      some [c1, c2, c3, c4]
    else
      findYearAux (some c1) (c2 :: c3 :: c4 :: rest)
  | _ => none

/-- Greedy `\d{1,2}` with no trailing constraint: two digits if available,
else one, else no match. -/
def digits12 : List Char → Option Nat
  | a :: b :: _ =>
    if a.isDigit then
      if b.isDigit then some (10 * (a.toNat - 48) + (b.toNat - 48))
      else some (a.toNat - 48)
    else none
  | [a] => if a.isDigit then some (a.toNat - 48) else none
  | [] => none

/-- Match of `(\d{1,2})[Ee](\d{1,2})` immediately after the `[Ss]`, with
RE2 backtracking on the first group (two digits preferred; a one-digit
season needs the next character to be `E`/`e`, which a digit never is). -/
def seAfterS : List Char → Option (Nat × Nat)
  | d1 :: rest =>
    if !d1.isDigit then none else
    match rest with
    | d2 :: rest2 =>
      if d2.isDigit then
        match rest2 with
        | e :: rest3 =>
          if e = 'E' || e = 'e' then
            (digits12 rest3).map
              (fun ep => (10 * (d1.toNat - 48) + (d2.toNat - 48), ep))
          else none
        | [] => none
      else if d2 = 'E' || d2 = 'e' then
        (digits12 rest2).map (fun ep => (d1.toNat - 48, ep))
      else none
    | [] => none
  | [] => none

/-- Leftmost match of `seasonEpRegex = [Ss](\d{1,2})[Ee](\d{1,2})`. -/
def findSeasonEpAux : List Char → Option (Nat × Nat)
  | [] => none
  | c :: rest =>
    if c = 'S' || c = 's' then
      match seAfterS rest with
      | some r => some r
      | none => findSeasonEpAux rest
    else findSeasonEpAux rest

/-- Match of `[\s\.]?(\d{1,2})` after the literal `eason`; the optional
separator backtracks to the empty match, which then needs a digit where
the separator stood. -/
def afterSeason : List Char → Option Nat
  | c :: rest =>
    if c.isDigit then digits12 (c :: rest)
    else if goIsSpace c || c = '.' then digits12 rest
    else none
  | [] => none

/-- Leftmost match of `seasonRegex = [Ss]eason[\s\.]?(\d{1,2})`. -/
def findSeasonAux : List Char → Option Nat
  | [] => none
  | c :: rest =>
    if (c = 'S' || c = 's') && hasPfx ['e', 'a', 's', 'o', 'n'] rest then
      match afterSeason (rest.drop 5) with
      | some n => some n
      | none => findSeasonAux rest
    else findSeasonAux rest

/-- Case-insensitive prefix test (for `(?i)` alternations). -/
def ciHasPfx : List Char → List Char → Bool
  | [], _ => true
  | _ :: _, [] => false
  | a :: as, b :: bs => a.toLower = b.toLower && ciHasPfx as bs

/-- Leftmost-first match over a list of case-insensitive literal
alternatives; returns the matched input substring in its original case. -/
def findFirstAlt (pats : List (List Char)) : List Char → Option (List Char)
  | [] => none
  | c :: rest =>
    match pats.find? (fun p => ciHasPfx p (c :: rest)) with
    | some p => some ((c :: rest).take p.length)
    | none => findFirstAlt pats rest

/-- Alternatives of `resolutionRegex = (?i)(2160p|1080p|720p|480p|4k|uhd)`. -/
def resolutionAlts : List (List Char) :=
  [['2','1','6','0','p'], ['1','0','8','0','p'], ['7','2','0','p'],
   ['4','8','0','p'], ['4','k'], ['u','h','d']]

/-- Alternatives of `codecRegex = (?i)(x265|H\.?265|HEVC|x264|H\.?264|AVC|XviD)`,
with the optional dot expanded greedily (dot form preferred). -/
def codecAlts : List (List Char) :=
  [['x','2','6','5'], ['h','.','2','6','5'], ['h','2','6','5'],
   ['h','e','v','c'], ['x','2','6','4'], ['h','.','2','6','4'],
   ['h','2','6','4'], ['a','v','c'], ['x','v','i','d']]

/-- `normalizeResolution` from the source. -/
def normalizeResolution (res : String) : String :=
  let res := goToUpper (String.mk (trimSpaceList res.toList))
  if goContains res "2160" || goContains res "4K" || goContains res "UHD" then "2160P"
  else if goContains res "1080" then "1080P"
  else if goContains res "720" then "720P"
  else if goContains res "480" then "480P"
  else res

/-- `normalizeSource` from the source (applied to the whole title so that
`REMUX` wins over `BluRay` when both appear). -/
def normalizeSource (source : String) : String :=
  let source := goToUpper (String.mk (trimSpaceList source.toList))
  if goContains source "REMUX" then "REMUX"
  else if goContains source "BLURAY" || goContains source "BLU-RAY"
      || goContains source "BRRIP" then "BLURAY"
  else if goContains source "WEB-DL" || goContains source "WEBDL"
      || goContains source "WEBRIP" || goContains source "WEB" then "WEB-DL"
  else if goContains source "HDTV" then "HDTV"
  else if goContains source "DVDRIP" || goContains source "DVD" then "DVD"
  else source

/-- `normalizeCodec` from the source (dots removed before matching). -/
def normalizeCodec (codec : String) : String :=
  let codec := goToUpper (String.mk (trimSpaceList codec.toList))
  let codec := String.mk (codec.toList.filter (fun c => c ≠ '.'))
  if goContains codec "X265" || goContains codec "HEVC" || goContains codec "H265" then "X265"
  else if goContains codec "X264" || goContains codec "H264" || goContains codec "AVC" then "X264"
  else if goContains codec "XVID" then "XVID"
  else codec

/-- `strings.Replace(s, old, "", 1)`: drop the first occurrence of `pat`. -/
def replaceFirstEmpty : List Char → List Char → List Char
  | [], _ => []
  | c :: rest, pat =>
    if hasPfx pat (c :: rest) then (c :: rest).drop pat.length
    else c :: replaceFirstEmpty rest pat

/-- Separator class of the title `FieldsFunc` call. -/
def isTitleSep (c : Char) : Bool := c = '.' || c = ' ' || c = '-' || c = '_'

/-- `strings.FieldsFunc` with `isTitleSep`, dropping empty fields. -/
def titleFieldsAux (cur : List Char) : List Char → List (List Char)
  | [] => if cur.isEmpty then [] else [cur.reverse]
  | c :: rest =>
    if isTitleSep c then
      if cur.isEmpty then titleFieldsAux [] rest
      else cur.reverse :: titleFieldsAux [] rest
    else titleFieldsAux (c :: cur) rest

/-- `isNumeric` from the source: `strconv.ParseInt(s, 10, 64)` succeeds. -/
def isNumeric (p : List Char) : Bool :=
  match p with
  | [] => false
  | c :: rest =>
    let ds := if c = '+' || c = '-' then rest else p
    !ds.isEmpty && ds.all Char.isDigit &&
      natOfDigits ds ≤ (if c = '-' then 9223372036854775808 else 9223372036854775807)

/-- The title-word loop of `Parse`: stop at the first quality indicator,
keep non-numeric parts. -/
def takeTitleWords : List (List Char) → List (List Char)
  | [] => []
  | p :: rest =>
    let upper := listToUpper p
    if containsSub ['1','0','8','0'] upper || containsSub ['7','2','0'] upper
        || containsSub ['B','L','U','R','A','Y'] upper
        || containsSub ['W','E','B'] upper
        || containsSub ['X','2','6','4'] upper
        || containsSub ['X','2','6','5'] upper then []
    else if !p.isEmpty && !isNumeric p then p :: takeTitleWords rest
    else takeTitleWords rest

/-- `parser.Parse`: extract structured release information from a title. -/
def Parse (title : String) : ParsedInfo :=
  let tl := title.toList
  let yearMatch := findYearAux none tl
  let year : Int := match yearMatch with
    | some ys => (natOfDigits ys : Int)
    | none => 0
  let cleanTitle := match yearMatch with
    | some ys => replaceFirstEmpty tl ys
    | none => tl
  let se : Int × Int := match findSeasonEpAux tl with
    | some (s, e) => ((s : Int), (e : Int))
    | none =>
      match findSeasonAux tl with
      | some s => ((s : Int), 0)
      | none => (0, 0)
  let resolution := match findFirstAlt resolutionAlts tl with
    | some m => normalizeResolution (String.mk m)
    | none => ""
  let source := normalizeSource title
  let codec := match findFirstAlt codecAlts tl with
    | some m => normalizeCodec (String.mk m)
    | none => ""
  let titleUpper := goToUpper title
  let isProper := goContains titleUpper "PROPER"
  let isRepack := goContains titleUpper "REPACK"
  let titleWords := takeTitleWords (titleFieldsAux [] cleanTitle)
  { Title := String.intercalate " " (titleWords.map String.mk)
    Year := year
    Season := se.1
    Episode := se.2
    Resolution := resolution
    Source := source
    Codec := codec
    IsProper := isProper
    IsRepack := isRepack }

/-- Existence test for `S\d{1,2}[^E]` on an uppercased title: by case
analysis on the backtracking search this is equivalent to an `S`, a digit,
and any following character other than `E` (a digit is never `E`). -/
def hasSNum : List Char → Bool
  | 'S' :: d :: c :: rest => (d.isDigit && c ≠ 'E') || hasSNum (d :: c :: rest)
  | _ :: rest => hasSNum rest
  | [] => false

/-- `parser.IsSeasonPack`: season notation present, episode notation absent. -/
def IsSeasonPack (title : String) : Bool :=
  let tu := (goToUpper title).toList
  let hasSeason := containsSub ['S','E','A','S','O','N'] tu || hasSNum tu
  let hasEpisode :=
    containsSub ['E','0'] tu || containsSub ['E','1'] tu
      || containsSub ['E','2'] tu || containsSub ['E','3'] tu
      || containsSub ['X','0'] tu || containsSub ['X','1'] tu
      || containsSub ['X','2'] tu || containsSub ['X','3'] tu
  hasSeason && !hasEpisode

end parser

namespace scorer

/-! ## Scorer (`pkg/scorer`)

The Go scorer computes the validation score in `float64`; the embedding
uses `ℚ`.  All branch values are exact small rationals, and the proved
range bounds ([0,100] / [0,110]) absorb the sub-half-ulp error of the
float evaluation, so the bounds transfer to the Go code. -/


/-- `scorer.MediaInfo` (media information for scoring). -/
structure MediaInfo where
  Title : String
  Year : Int
  Season : Int
  Number : Int
deriving Repr, DecidableEq

/-- `MediaInfo.IsEpisode`. -/
def MediaInfo.IsEpisode (m : MediaInfo) : Bool := m.Season > 0 && m.Number > 0

/-- Unicode-NFD accent stripping for a single character, restricted to the
Latin accented letters the table covers; ASCII characters are unchanged,
exactly as under NFD + removal of nonspacing marks. -/
def deaccentChar (c : Char) : Char :=
  if c ∈ ['á','à','â','ä','ã','å'] then 'a'
  else if c ∈ ['é','è','ê','ë'] then 'e'
  else if c ∈ ['í','ì','î','ï'] then 'i'
  else if c ∈ ['ó','ò','ô','ö','õ'] then 'o'
  else if c ∈ ['ú','ù','û','ü'] then 'u'
  else if c = 'ñ' then 'n' else if c = 'ç' then 'c' else if c = 'ý' then 'y'
  else if c ∈ ['Á','À','Â','Ä','Ã','Å'] then 'A'
  else if c ∈ ['É','È','Ê','Ë'] then 'E'
  else if c ∈ ['Í','Ì','Î','Ï'] then 'I'
  else if c ∈ ['Ó','Ò','Ô','Ö','Õ'] then 'O'
  else if c ∈ ['Ú','Ù','Û','Ü'] then 'U'
  else if c = 'Ñ' then 'N' else if c = 'Ç' then 'C'
  else c

/-- `removeAccents` (NFD, strip nonspacing marks, NFC). -/
def removeAccents (s : String) : String := String.mk (s.toList.map deaccentChar)

/-- Character filter of `normalizeTitle`: keep `[a-z0-9 ]`, drop the rest. -/
def keepTitleChar (c : Char) : Bool :=
  ('a' ≤ c && c ≤ 'z') || ('0' ≤ c && c ≤ '9') || c = ' '

/-- `normalizeTitle`: de-accent, lowercase, strip specials, collapse spaces. -/
def normalizeTitle (title : String) : String :=
  let l := (removeAccents title).toList
  let l := listToLower l
  let l := l.filter keepTitleChar
  let l := trimSpaceList l
  String.mk (List.intercalate [' '] (goFields l))

/-- One DP row extension for the Levenshtein distance: `pj` walks the
previous row, `pdiag` is the previous row's entry one to the left, `qprev`
the entry just written in the current row. -/
def levRowAux (ca : Char) : List Char → List Nat → Nat → Nat → List Nat
  | [], _, _, _ => []
  | _ :: _, [], _, _ => []
  | cb :: cbs, pj :: ptail, pdiag, qprev =>
    let cost := if ca = cb then 0 else 1
    let qj := min (pj + 1) (min (qprev + 1) (pdiag + cost))
    qj :: levRowAux ca cbs ptail pj qj

/-- Levenshtein distance (`levenshtein.ComputeDistance`), by the classic
row dynamic programme. -/
def levenshtein (a b : List Char) : Nat :=
  let row0 := List.range (b.length + 1)
  let finalRow := a.foldl
    (fun row ca =>
      match row with
      | [] => []
      | p0 :: ptail => (p0 + 1) :: levRowAux ca b ptail p0 (p0 + 1))
    row0
  finalRow.getLastD 0

/-- `calculateTitleSimilarity` (0.0 – 1.0), in `ℚ`. -/
def calculateTitleSimilarity (title1 title2 : String) : ℚ :=
  let t1 := normalizeTitle title1
  let t2 := normalizeTitle title2
  if t1 = t2 then 1
  else
    let distance := levenshtein t1.toList t2.toList
    let maxLen := max t1.toList.length t2.toList.length
    if maxLen = 0 then 0
    else max 0 (1 - (distance : ℚ) / (maxLen : ℚ))

/-- `calculateYearScore`. -/
def calculateYearScore (mediaYear parsedYear : Int) : Int :=
  if parsedYear = 0 then 0
  else
    let diff := (mediaYear - parsedYear).natAbs
    if diff = 0 then 30 else if diff = 1 then 20 else if diff = 2 then 10 else 0

/-- The season/episode block of `ValidationScore` (episodes only): season
match is +10, a season pack (episode 0) with matching season a further
+10, an exact episode match +10. -/
def seasonEpisodeScore (media : MediaInfo) (parsed : parser.ParsedInfo) : Int :=
  if media.IsEpisode then
    (if parsed.Season = media.Season then
      10 + (if parsed.Episode = 0 then 10 else 0)
    else 0)
    + (if parsed.Episode = media.Number then 10 else 0)
  else 0

/-- `math.Round`: round half away from zero, then truncate to `int`. -/
def goRound (q : ℚ) : Int :=
  if 0 ≤ q then ⌊q + 1 / 2⌋ else -⌊-q + 1 / 2⌋

/-- `scorer.ValidationScore` (0-100): title similarity (max 50) + year
match (max 30) + season/episode match (max 20), rounded. -/
def ValidationScore (media : MediaInfo) (parsed : parser.ParsedInfo) : Int :=
  goRound (calculateTitleSimilarity media.Title parsed.Title * 50
    + (calculateYearScore media.Year parsed.Year : ℚ)
    + (seasonEpisodeScore media parsed : ℚ))

/-- `sourceScore` (`pkg/scorer/quality.go`): REMUX deliberately 60. -/
def sourceScore (source : String) : Int :=
  if source = "REMUX" then 60
  else if source = "BLURAY" then 35
  else if source = "WEB-DL" then 25
  else if source = "HDTV" then 15
  else if source = "DVD" then 10
  else 0

/-- `resolutionScore`. -/
def resolutionScore (resolution : String) : Int :=
  if resolution = "2160P" then 30
  else if resolution = "1080P" then 25
  else if resolution = "720P" then 15
  else if resolution = "480P" then 5
  else 0

/-- `codecScore`. -/
def codecScore (codec : String) : Int :=
  if codec = "X265" then 15
  else if codec = "X264" then 12
  else if codec = "XVID" then 5
  else 0

/-- `scorer.QualityScore`: source + resolution + codec + proper/repack flag. -/
def QualityScore (parsed : parser.ParsedInfo) : Int :=
  sourceScore parsed.Source + resolutionScore parsed.Resolution
    + codecScore parsed.Codec
    + (if parsed.IsProper || parsed.IsRepack then 5 else 0)

/-- `Blacklist.Contains`: the loaded word list is already lowercased; the
title is lowercased and checked for any of the words as a substring. -/
def blacklistContains (words : List String) (title : String) : Bool :=
  words.any (fun w => goContains (goToLower title) w)

end scorer

namespace ports

/-! ## Core domain (`internal/core/domain`) and ports (`internal/core/ports`) -/


/-- `ports.TraktShow`. -/
structure TraktShow where
  TraktID : Int
  IMDB : String
  Title : String
  Year : Int
deriving Repr, DecidableEq

/-- `ports.NewsnabResult` (indexer search result; `PubDate` omitted — no
embedded code reads it). -/
structure NewsnabResult where
  Title : String
  Link : String
  Size : Int
deriving Repr, DecidableEq

end ports

namespace domain

/-- `domain.Media` (hexagonal-core variant: movies and TV episodes). -/
structure Media where
  TraktID : Int
  IMDB : String
  Number : Int
  Season : Int
  Title : String
  Year : Int
  OnDisk : Bool
  Path : String
  DownloadID : Int
deriving Repr, DecidableEq

/-- `Media.IsMovie`. -/
def Media.IsMovie (m : Media) : Bool := m.Season = 0 && m.Number = 0

/-- `Media.IsEpisode`. -/
def Media.IsEpisode (m : Media) : Bool := m.Season > 0 && m.Number > 0

/-- `domain.NZB` (release candidate).  The repository carries two close
variants of this struct: one exposes `IsSeasonPack` as a stored field, the
other derives it from the parsed season/episode with a method.  The
embedding carries the field (false when the creating code does not set it,
Go's zero value) and the derived form below. -/
structure NZB where
  ID : Nat
  TraktID : Int
  IMDB : String
  Link : String
  Length : Int
  Title : String
  Failed : Bool
  ParsedTitle : String
  ParsedYear : Int
  ParsedSeason : Int
  ParsedEpisode : Int
  IsSeasonPack : Bool
  Resolution : String
  Source : String
  Codec : String
  ValidationScore : Int
  QualityScore : Int
  TotalScore : Int
deriving Repr, DecidableEq

/-- The `NZB.IsSeasonPack()` method of the derived variant:
`ParsedSeason > 0 && ParsedEpisode == 0`. -/
def NZB.isSeasonPackDerived (n : NZB) : Bool :=
  n.ParsedSeason > 0 && n.ParsedEpisode = 0

end domain

namespace services

/-! ## NZBService (`internal/core/services` — search, validate and score) -/


/-- The score floors of `config.DownloadConfig` that `ValidateAndScore`
reads. -/
structure DownloadConfig where
  MinValidationScore : Int
  MinQualityScore : Int
  MinTotalScore : Int
deriving Repr, DecidableEq

/-- `NZBRepository.FindSeasonPackByIMDB`: among stored rows with this imdb,
this parsed season, parsed episode 0 and not failed, the one with the
highest total score (`ORDER BY total_score DESC ... First`). -/
def FindSeasonPackByIMDB (repo : List domain.NZB) (imdb : String) (season : Int) :
    Option domain.NZB :=
  (repo.filter (fun n =>
      n.IMDB = imdb && n.ParsedSeason = season && n.ParsedEpisode = 0 && n.Failed = false)).foldl
    (fun acc n =>
      match acc with
      | none => some n
      | some b => if n.TotalScore > b.TotalScore then some n else some b)
    none

/-- The NZB candidate row `ValidateAndScore` builds for one result: parse
the release title and compute the three scores. -/
def mkCandidate (media : domain.Media) (result : ports.NewsnabResult) : domain.NZB :=
  let parsed := parser.Parse result.Title
  let mediaInfo : scorer.MediaInfo :=
    { Title := media.Title, Year := media.Year
      Season := media.Season, Number := media.Number }
  let validationScore := scorer.ValidationScore mediaInfo parsed
  let qualityScore := scorer.QualityScore parsed
  { ID := 0
    TraktID := media.TraktID
    IMDB := media.IMDB
    Link := result.Link
    Length := result.Size
    Title := result.Title
    Failed := false
    ParsedTitle := parsed.Title
    ParsedYear := parsed.Year
    ParsedSeason := parsed.Season
    ParsedEpisode := parsed.Episode
    IsSeasonPack := false
    Resolution := parsed.Resolution
    Source := parsed.Source
    Codec := parsed.Codec
    ValidationScore := validationScore
    QualityScore := qualityScore
    TotalScore := validationScore + qualityScore }

/-- Loop state of `ValidateAndScore`: the running best candidate (for the
fallback), the stored count, and the rows already created this call. -/
structure VSState where
  best : Option domain.NZB
  count : Nat
  created : List domain.NZB
deriving Repr, DecidableEq

/-- One iteration of the `ValidateAndScore` result loop. -/
def vsStep (cfg : DownloadConfig) (bl : List String) (media : domain.Media)
    (repo : List domain.NZB) (st : VSState) (result : ports.NewsnabResult) : VSState :=
  if scorer.blacklistContains bl result.Title then st
  else
    let nzb := mkCandidate media result
    let best' := match st.best with
      | none => some nzb
      | some b => if nzb.TotalScore > b.TotalScore then some nzb else some b
    let st1 : VSState := { st with best := best' }
    if nzb.ValidationScore < cfg.MinValidationScore then st1
    else if nzb.QualityScore < cfg.MinQualityScore then st1
    else if nzb.TotalScore < cfg.MinTotalScore then st1
    else if nzb.isSeasonPackDerived && nzb.IMDB ≠ ""
        && (FindSeasonPackByIMDB (repo ++ st1.created) nzb.IMDB nzb.ParsedSeason).isSome then st1
    else { st1 with count := st1.count + 1, created := st1.created ++ [nzb] }

/-- `NZBService.ValidateAndScore`: returns the list of NZB rows created
(every `repo.Create` call, in order).  Repository writes are assumed to
succeed; the parent media row is never touched by this function. -/
def ValidateAndScore (cfg : DownloadConfig) (bl : List String) (media : domain.Media)
    (results : List ports.NewsnabResult) (repo : List domain.NZB) : List domain.NZB :=
  let st := results.foldl (vsStep cfg bl media repo) ⟨none, 0, []⟩
  if st.count = 0 then
    match st.best with
    | none => st.created
    | some b =>
      if b.isSeasonPackDerived && b.IMDB ≠ ""
          && (FindSeasonPackByIMDB (repo ++ st.created) b.IMDB b.ParsedSeason).isSome then
        st.created
      else st.created ++ [b]
  else st.created

/-- One outbound indexer request of `SearchForMedia`. -/
inductive IndexerCall where
  | searchMovie (imdb : String)
  | searchEpisode (imdb : String) (season episode : Int)
  | searchSeasonPack (imdb : String) (season : Int)
deriving Repr, DecidableEq

/-- The indexer adapter (`ports.NZBSearcher`) as an environment: each
operation either fails or returns results. -/
structure SearcherEnv where
  movie : String → Except String (List ports.NewsnabResult)
  episode : String → Int → Int → Except String (List ports.NewsnabResult)
  seasonPack : String → Int → Except String (List ports.NewsnabResult)

/-- `NZBService.SearchForMedia`: dispatch on the media kind, issue the
indexer searches, and hand the results to `ValidateAndScore`.  Returns the
indexer calls actually issued alongside the outcome. -/
def SearchForMedia (env : SearcherEnv) (bl : List String) (cfg : DownloadConfig)
    (media : domain.Media) (repo : List domain.NZB) :
    List IndexerCall × Except String (List domain.NZB) :=
  if media.IsMovie then
    match env.movie media.IMDB with
    | .error e => ([.searchMovie media.IMDB], .error ("search failed: " ++ e))
    | .ok results =>
      ([.searchMovie media.IMDB], .ok (ValidateAndScore cfg bl media results repo))
  else if media.IsEpisode then
    let packCall := IndexerCall.searchSeasonPack media.IMDB media.Season
    let epCall := IndexerCall.searchEpisode media.IMDB media.Season media.Number
    let fallback : List IndexerCall × Except String (List domain.NZB) :=
      match env.episode media.IMDB media.Season media.Number with
      | .error e => ([packCall, epCall], .error ("search failed: " ++ e))
      | .ok rs => ([packCall, epCall], .ok (ValidateAndScore cfg bl media rs repo))
    match env.seasonPack media.IMDB media.Season with
    | .error _ => fallback
    | .ok seasonResults =>
      let validPacks := seasonResults.filter
        (fun r => parser.IsSeasonPack r.Title && !scorer.blacklistContains bl r.Title)
      if validPacks.isEmpty then fallback
      else ([packCall], .ok (ValidateAndScore cfg bl media validPacks repo))
  else ([], .error "invalid media type")

/-- A candidate misses at least one of the three configured score floors. -/
def failsFloors (cfg : DownloadConfig) (n : domain.NZB) : Prop :=
  n.ValidationScore < cfg.MinValidationScore
    ∨ n.QualityScore < cfg.MinQualityScore
    ∨ n.TotalScore < cfg.MinTotalScore

/-- The best-candidate tracking of the `ValidateAndScore` loop in
isolation: skip blacklisted results, keep the strictly higher total score. -/
def bestStep (bl : List String) (media : domain.Media)
    (acc : Option domain.NZB) (r : ports.NewsnabResult) : Option domain.NZB :=
  if scorer.blacklistContains bl r.Title then acc
  else
    match acc with
    | none => some (mkCandidate media r)
    | some b =>
      if (mkCandidate media r).TotalScore > b.TotalScore then some (mkCandidate media r)
      else some b

end services

/-- Concrete inputs for the C6 witness. -/
def wRes1 : ports.NewsnabResult := ⟨"Arrival.2016.1080p.BluRay.x264-BADGROUP", "l1", 8⟩

/-- Second C6 witness result: passes the blacklist but scores 720p+HDTV+XviD
quality 35, under the quality floor 40. -/
def wRes2 : ports.NewsnabResult := ⟨"Arrival.2016.720p.HDTV.XviD-GRP", "l2", 3⟩

/-- The C6 witness media row (the movie `Arrival`, 2016). -/
def wMedia : domain.Media := ⟨11, "tt2543164", 0, 0, "Arrival", 2016, false, "", 0⟩

namespace models

/-! ## Bolthold data model (`internal/models`) and Trakt progress types -/


/-- `models.MediaType`. -/
inductive MediaType where
  | movie
  | tv
deriving Repr, DecidableEq

/-- `models.Source`. -/
inductive Source where
  | favorites
  | watchlist
deriving Repr, DecidableEq

/-- `models.Status` (media processing status). -/
inductive Status where
  | pending
  | searching
  | downloading
  | completed
  | failed
deriving Repr, DecidableEq

/-- `models.NZBStatus`. -/
inductive NZBStatus where
  | candidate
  | selected
  | downloading
  | completed
  | failed
  | blacklisted
deriving Repr, DecidableEq

/-- `models.Media` (bolthold variant).  The wall-clock audit timestamps
(`CreatedAt`, `UpdatedAt`, `CompletedAt`, `LastSearchedAt`) are outside the
embedding; `LastSeenInTrakt` is carried as an abstract tick so the sync
refresh is visible. -/
structure Media where
  ID : Nat
  IMDBId : String
  MediaType : MediaType
  Title : String
  Year : Int
  SeasonNumber : Option Int
  EpisodeNumber : Option Int
  Source : Source
  Status : Status
  Watched : Bool
  InTrakt : Bool
  LastSeenInTrakt : Nat
deriving Repr, DecidableEq

/-- `models.NZB` (bolthold variant), the fields the download controller
reads and writes (the audit timestamps are outside the embedding). -/
structure NZB where
  ID : Nat
  MediaID : Nat
  Title : String
  Link : String
  Size : Int
  TorBoxJobID : String
  TorBoxHash : String
  Status : NZBStatus
  RetryCount : Nat
  FailureReason : String
  IsSeasonPack : Bool
deriving Repr, DecidableEq

end models

namespace trakt

/-- `trakt.Episode`. -/
structure Episode where
  Season : Int
  Episode : Int
deriving Repr, DecidableEq

/-- `trakt.ShowProgress`. -/
structure ShowProgress where
  NextEpisode : Option Episode
  UnwatchedEpisodes : List Episode
deriving Repr, DecidableEq

end trakt

namespace controllers

/-! ## Controllers (`internal/controllers`): strategy, sync, cleanup gating -/


/-- `controllers.StrategyType`. -/
inductive StrategyType where
  | singleEpisode
  | seasonPack
  | next3Episodes
  | singleMovie
deriving Repr, DecidableEq

/-- `controllers.DownloadStrategy` (`Type` is `Kind` here — `Type` is a
Lean keyword). -/
structure DownloadStrategy where
  Kind : StrategyType
  Episodes : List trakt.Episode
  SeasonNumber : Option Int
deriving Repr, DecidableEq

/-- `StrategyController.nextEpisodeStrategy` (watchlist shows): target the
single next unwatched episode. -/
def nextEpisodeStrategy (progress : trakt.ShowProgress) :
    Except String DownloadStrategy :=
  match progress.NextEpisode with
  | none => .error "no unwatched episodes found"
  | some ep => .ok ⟨.singleEpisode, [ep], none⟩

/-- `StrategyController.favoritesStrategy`: season pack for the season of
the first unwatched episode (the search controller also searches the next
3 individual episodes). -/
def favoritesStrategy (progress : trakt.ShowProgress) :
    Except String DownloadStrategy :=
  match progress.UnwatchedEpisodes with
  | [] => .error "no unwatched episodes found"
  | firstUnwatched :: _ =>
    let season := firstUnwatched.Season
    let unwatchedInSeason := progress.UnwatchedEpisodes.filter (fun e => e.Season = season)
    .ok ⟨.seasonPack, unwatchedInSeason, some season⟩

/-- `StrategyController.DetermineStrategy` (the show-progress lookup is
passed in as the already-fetched `progress`). -/
def DetermineStrategy (media : models.Media) (progress : trakt.ShowProgress) :
    Except String DownloadStrategy :=
  if media.MediaType = .movie then .ok ⟨.singleMovie, [], none⟩
  else if media.Source = .watchlist then nextEpisodeStrategy progress
  else favoritesStrategy progress

end controllers

namespace services

/-! ## SyncEpisodes job fan-out (`MediaService.SyncEpisodes`) -/


/-- The `showJob` structure of `MediaService.SyncEpisodes`. -/
structure showJob where
  show' : ports.TraktShow
  episodeLimit : Int
  showType : String
deriving Repr, DecidableEq

/-- The job queue `SyncEpisodes` fills: watchlist shows are queued with
`episodeLimit: 3`, favourite shows with the configured
`FavoritesEpisodeLimit`. -/
def syncEpisodeJobs (watchlistShows favoriteShows : List ports.TraktShow)
    (favoritesEpisodeLimit : Int) : List showJob :=
  watchlistShows.map (fun s => ⟨s, 3, "watchlist"⟩)
    ++ favoriteShows.map (fun s => ⟨s, favoritesEpisodeLimit, "favorite"⟩)

end services

namespace controllers

/-! ## SyncController.SyncAll (`internal/controllers/search.go`) -/


/-- One step of `SyncAll`, in execution order. -/
inductive SyncAction where
  | markAllNotInTrakt
  | syncFavoritesShows
  | syncFavoritesMovies
  | syncWatchlistShows
  | syncWatchlistMovies
  | syncWatched
  | updateEpisodeWatched
  | cleanupRemovedFromTrakt
deriving Repr, DecidableEq

/-- Which steps of a `SyncAll` cycle fail (each step is attempted
regardless; failures are logged and recorded in `syncFailed`). -/
structure SyncOutcomes where
  markFail : Bool
  favShowsFail : Bool
  favMoviesFail : Bool
  wlShowsFail : Bool
  wlMoviesFail : Bool
  watchedFail : Bool
  updateEpisodeWatchedFail : Bool
deriving Repr, DecidableEq

/-- `SyncController.SyncAll`: the executed steps, in order.  `syncFailed`
is set by a failure of any of the five list syncs (steps 2-6); cleanup of
items removed from Trakt runs only when `syncFailed` is still false. -/
def SyncAll (o : SyncOutcomes) : List SyncAction :=
  let syncFailed := o.favShowsFail || o.favMoviesFail || o.wlShowsFail
    || o.wlMoviesFail || o.watchedFail
  [.markAllNotInTrakt, .syncFavoritesShows, .syncFavoritesMovies,
   .syncWatchlistShows, .syncWatchlistMovies, .syncWatched, .updateEpisodeWatched]
    ++ (if syncFailed then [] else [.cleanupRemovedFromTrakt])

/-! ## Sync status refresh (`syncFavorites` / `syncWatchlist`) -/


/-- The update `syncFavorites` applies to a media row it re-observes in the
favorites list: refresh the IMDB id, presence flag, last-seen tick, and
source; reset a failed status to pending and leave every other status
(completed included) unchanged. -/
def syncFavoritesUpdateExisting (m : models.Media) (imdbID : String) (now : Nat) :
    models.Media :=
  { m with
    IMDBId := imdbID
    InTrakt := true
    LastSeenInTrakt := now
    Source := .favorites
    Status := if m.Status = .failed then .pending else m.Status }

/-- The update `syncWatchlist` applies to a re-observed media row; same as
the favorites one except the source becomes `watchlist`. -/
def syncWatchlistUpdateExisting (m : models.Media) (imdbID : String) (now : Nat) :
    models.Media :=
  { m with
    IMDBId := imdbID
    InTrakt := true
    LastSeenInTrakt := now
    Source := .watchlist
    Status := if m.Status = .failed then .pending else m.Status }

/-! ## Download controller (`internal/controllers/download.go`)

The controller is a state machine over the bolthold store.  The store is a
pair of record lists; bolthold `Find` returns records in key order, which
the embedding models as list order.  The TorBox and indexer clients become
an environment record plus an effect trace. -/


/-- `maxRetries` from `download.go`. -/
def maxRetries : Nat := 5

/-- Externally visible TorBox calls of the download controller. -/
inductive TorBoxEffect where
  | deleteJob (jobID : String)
  | jobCreated (nzbID : Nat) (jobID : String)
deriving Repr, DecidableEq

/-- The indexer + TorBox environment, keyed by NZB record id: whether the
artifact fetch and the job creation succeed, the job id and hash TorBox
assigns, and the cached-hit signals. -/
structure DownloadEnv where
  nzbFetchOk : Nat → Bool
  createOk : Nat → Bool
  jobIdFor : Nat → String
  hashFor : Nat → String
  cachedDetail : Nat → Bool
  cachedVerified : Nat → Bool

/-- The bolthold store: media and NZB records in key order. -/
structure DB where
  media : List models.Media
  nzbs : List models.NZB
deriving Repr, DecidableEq

/-- `db.GetNZBByTorBoxJobID`: first NZB whose job id matches. -/
def GetNZBByTorBoxJobID (db : DB) (jobID : String) : Option models.NZB :=
  (db.nzbs.filter (fun n => n.TorBoxJobID = jobID)).head?

/-- `db.GetMediaByID`. -/
def GetMediaByID (db : DB) (id : Nat) : Option models.Media :=
  db.media.find? (fun m => m.ID = id)

/-- `db.GetNZBByID`. -/
def GetNZBByID (db : DB) (id : Nat) : Option models.NZB :=
  db.nzbs.find? (fun n => n.ID = id)

/-- `db.UpdateNZB`: overwrite the record with this key. -/
def UpdateNZB (db : DB) (n : models.NZB) : DB :=
  { db with nzbs := db.nzbs.map (fun x => if x.ID = n.ID then n else x) }

/-- `db.UpdateMedia`. -/
def UpdateMedia (db : DB) (m : models.Media) : DB :=
  { db with media := db.media.map (fun x => if x.ID = m.ID then m else x) }

/-- `db.GetBestCandidateNZB`: first candidate-status NZB of this media
(bolthold returns them pre-sorted, best first). -/
def GetBestCandidateNZB (db : DB) (mediaID : Nat) : Option models.NZB :=
  (db.nzbs.filter (fun n => n.MediaID = mediaID && n.Status = .candidate)).head?

/-- `DownloadController.DownloadNZB`: fetch the artifact, create the
TorBox job, persist job id and statuses, and take the cached fast path
when TorBox reports a cached hit.  Returns the store, whether the call
returned without error, and the TorBox effects. -/
def DownloadNZB (env : DownloadEnv) (db : DB) (nzb : models.NZB) :
    DB × Bool × List TorBoxEffect :=
  if !env.nzbFetchOk nzb.ID then
    let nzbF : models.NZB :=
      { nzb with
        Status := .failed
        FailureReason := "failed to download NZB" }
    (UpdateNZB db nzbF, false, [])
  else if !env.createOk nzb.ID then
    let nzbF : models.NZB :=
      { nzb with
        Status := .failed
        FailureReason := "failed to upload to TorBox" }
    (UpdateNZB db nzbF, false, [])
  else
    let jobID := env.jobIdFor nzb.ID
    let nzb1 : models.NZB :=
      { nzb with
        TorBoxJobID := jobID
        TorBoxHash := env.hashFor nzb.ID
        Status := .downloading }
    let db1 := UpdateNZB db nzb1
    match GetMediaByID db1 nzb.MediaID with
    | none => (db1, false, [.jobCreated nzb.ID jobID])
    | some media =>
      let db2 := UpdateMedia db1 { media with Status := .downloading }
      if env.cachedDetail nzb.ID then
        if env.cachedVerified nzb.ID then
          let db3 := UpdateNZB db2 { nzb1 with Status := .completed }
          match GetMediaByID db3 nzb.MediaID with
          | none => (db3, true, [.jobCreated nzb.ID jobID])
          | some media2 =>
            (UpdateMedia db3 { media2 with Status := .completed }, true,
              [.jobCreated nzb.ID jobID])
        else (db2, true, [.jobCreated nzb.ID jobID])
      else (db2, true, [.jobCreated nzb.ID jobID])

/-- `DownloadController.RetryWithNextCandidate`: promote the next best
candidate to selected and run the download path; false when no candidate
is left or the download path errored. -/
def RetryWithNextCandidate (env : DownloadEnv) (db : DB) (mediaID : Nat) :
    DB × Bool × List TorBoxEffect :=
  match GetBestCandidateNZB db mediaID with
  | none => (db, false, [])
  | some nzb =>
    let nzb1 := { nzb with Status := .selected }
    let db1 := UpdateNZB db nzb1
    DownloadNZB env db1 nzb1

/-- The record the failed branch of `HandleWebhook` writes back for the
failing NZB: failed status, the reported reason, retry count + 1. -/
def failedNZB (nzb : models.NZB) (errorMsg : String) : models.NZB :=
  { nzb with
    Status := .failed
    FailureReason := errorMsg
    RetryCount := nzb.RetryCount + 1 }

/-- The `DeleteJob` call of the failed branch (only when a job id is
present on the record). -/
def deleteJobEffects (nzb : models.NZB) : List TorBoxEffect :=
  if nzb.TorBoxJobID ≠ "" then [TorBoxEffect.deleteJob nzb.TorBoxJobID] else []

/-- `DownloadController.HandleWebhook`.  The in-memory `nzb` and `media`
copies are mutated through the switch and written back at the end, after
any retry — mirroring the source's write order (including the stale media
write that follows a successful retry; the timestamps the completed branch
sets are wall-clock state outside the embedding). -/
def HandleWebhook (env : DownloadEnv) (db : DB) (jobID status errorMsg : String) :
    DB × List TorBoxEffect :=
  match GetNZBByTorBoxJobID db jobID with
  | none => (db, [])
  | some nzb =>
    match GetMediaByID db nzb.MediaID with
    | none => (db, [])
    | some media =>
      if status = "completed" ∨ status = "success" then
        (UpdateMedia (UpdateNZB db { nzb with Status := .completed })
          { media with Status := .completed }, [])
      else if status = "failed" ∨ status = "error" then
        if nzb.RetryCount + 1 < maxRetries then
          (UpdateMedia
            (UpdateNZB (RetryWithNextCandidate env db nzb.MediaID).1
              (failedNZB nzb errorMsg))
            (if (RetryWithNextCandidate env db nzb.MediaID).2.1 then media
              else { media with Status := .failed }),
           deleteJobEffects nzb ++ (RetryWithNextCandidate env db nzb.MediaID).2.2)
        else
          (UpdateMedia (UpdateNZB db (failedNZB nzb errorMsg))
            { media with Status := .failed },
           deleteJobEffects nzb)
      else
        (UpdateMedia (UpdateNZB db nzb) media, [])

end controllers

/-- C7 counterexample setup: the TorBox/indexer environment in which every
fetch and job creation succeeds, nothing is cached, and NZB record `i`
gets job id `"j" ++ i`. -/
def whEnv : controllers.DownloadEnv :=
  ⟨fun _ => true, fun _ => true, fun i => "j" ++ toString i, fun _ => "",
   fun _ => false, fun _ => false⟩

/-- A media row in status downloading. -/
def whMedia : models.Media :=
  ⟨1, "tt1", .tv, "Show", 2020, some 1, some 2, .watchlist, .downloading, false, true, 0⟩

/-- An NZB record of media 1 with a given id, job id and status. -/
def whNZB (i : Nat) (job : String) (st : models.NZBStatus) : models.NZB :=
  ⟨i, 1, "t" ++ toString i, "l", 0, job, "", st, 0, "", false⟩

/-- The store for the C7 counterexample: one downloading NZB with job `j1`
and one remaining candidate. -/
def c7DB : controllers.DB :=
  ⟨[whMedia], [whNZB 1 "j1" .downloading, whNZB 2 "" .candidate]⟩

/-- The C3 scenario store: one downloading NZB (job `j1`) and four further
candidates for the same media. -/
def c3DB : controllers.DB :=
  ⟨[whMedia], [whNZB 1 "j1" .downloading, whNZB 2 "" .candidate, whNZB 3 "" .candidate,
               whNZB 4 "" .candidate, whNZB 5 "" .candidate]⟩

/-- One failed-webhook delivery against job `j`. -/
def c3Step (db : controllers.DB) (j : String) : controllers.DB :=
  (controllers.HandleWebhook whEnv db j "failed" "e").1

/-- The store after all five candidates have failed once each (each retry
enqueues the next candidate, whose job id is `j<id>`). -/
def c3Final : controllers.DB :=
  c3Step (c3Step (c3Step (c3Step (c3Step c3DB "j1") "j2") "j3") "j4") "j5"

namespace dlsvc

/-! ## DownloadService (`internal/core/services/download.go`, sequential
variant of `part_015`) — season-pack deduplication within one cycle -/


/-- The environment a `DownloadMedia` cycle reads but never writes: the
repository lookups (`FindBestSeasonPack`, `FindBestByTraktID`), the
downloader queue test (`isInQueue` over the queue snapshot fetched once at
the start of the cycle, including its title normalisation), the history
snapshot, and which titles `QueueNZB` accepts. -/
structure DownloadSvcEnv where
  findBestSeasonPack : String → Int → Option domain.NZB
  findBestByTraktID : Int → Option domain.NZB
  isInQueue : String → Bool
  history : List Int
  queueOk : String → Bool

/-- `isInHistory`: a zero download id is never in history, otherwise the
id is looked up in the history snapshot. -/
def isInHistory (downloadID : Int) (history : List Int) : Bool :=
  if downloadID = 0 then false else history.contains downloadID

/-- `fmt.Sprintf("%s_S%d", media.IMDB, media.Season)`. -/
def seasonKey (m : domain.Media) : String :=
  m.IMDB ++ "_S" ++ toString m.Season

/-- An observable enqueue performed by the cycle: the NZB title, the
media's Trakt id, the media's season key when the media is an episode,
and whether the enqueued NZB is a season pack. -/
inductive DLEffect where
  | queued (title : String) (traktID : Int) (sKey : Option String)
      (isPack : Bool)
deriving Repr, DecidableEq

/-- The per-cycle state of `DownloadMedia`: the `processedSeasons` set,
the `queuedThisRun` set, the queued count and the enqueues performed. -/
structure DLState where
  processedSeasons : List String
  queuedThisRun : List String
  count : Nat
  effects : List DLEffect
deriving Repr, DecidableEq

/-- One iteration of the `DownloadMedia` loop body on one media row. -/
def dlStep (env : DownloadSvcEnv) (s : DLState) (media : domain.Media) :
    DLState :=
  if media.DownloadID > 0 then s
  else if media.IsEpisode && s.processedSeasons.contains (seasonKey media)
  then s
  else
    match (if media.IsEpisode && media.IMDB ≠ ""
           then env.findBestSeasonPack media.IMDB media.Season
           else none).orElse (fun _ => env.findBestByTraktID media.TraktID)
    with
    | none => s
    | some nzb =>
      if s.queuedThisRun.contains nzb.Title then s
      else if env.isInQueue nzb.Title then s
      else if isInHistory media.DownloadID env.history then s
      else if env.queueOk nzb.Title = false then s
      else
        { processedSeasons :=
            if media.IsEpisode && nzb.isSeasonPackDerived
            then seasonKey media :: s.processedSeasons
            else s.processedSeasons
          queuedThisRun := nzb.Title :: s.queuedThisRun
          count := s.count + 1
          effects := s.effects ++ [DLEffect.queued nzb.Title media.TraktID
            (if media.IsEpisode then some (seasonKey media) else none)
            nzb.isSeasonPackDerived] }

/-- `DownloadMedia`: fold the loop body over the media list, starting
from empty per-cycle sets. -/
def DownloadMedia (env : DownloadSvcEnv) (mediaList : List domain.Media) :
    DLState :=
  mediaList.foldl (dlStep env) ⟨[], [], 0, []⟩

/-- The effect is an individual-episode enqueue for season key `k`. -/
def effIsIndiv (k : String) : DLEffect → Bool
  | .queued _ _ sk p => sk = some k && !p

/-- The effect is a season-pack enqueue for season key `k`. -/
def effIsPack (k : String) : DLEffect → Bool
  | .queued _ _ sk p => sk = some k && p

/-- Some individual-episode enqueue for `k` occurs in the list. -/
def hasIndiv (k : String) (l : List DLEffect) : Bool :=
  l.any (effIsIndiv k)

/-- Some season-pack enqueue for `k` occurs in the list. -/
def hasPack (k : String) (l : List DLEffect) : Bool :=
  l.any (effIsPack k)

/-- A season-pack enqueue for `k` is never followed by an
individual-episode enqueue for the same `k`: the head effect, if it is a
pack for an episode media, forbids individual enqueues of its key in the
tail. -/
def headOk : DLEffect → List DLEffect → Bool
  | .queued _ _ (some k) true, t => !(hasIndiv k t)
  | _, _ => true

/-- The ordering property over a whole effect trace. -/
def packBeforeIndivOk : List DLEffect → Bool
  | [] => true
  | e :: t => headOk e t && packBeforeIndivOk t

end dlsvc

/-- Environment for the C4 witness: a season pack exists for every
`(imdb, season)`, the queue and history are empty and every enqueue
succeeds. -/
def c4Pack : domain.NZB :=
  ⟨1, 11, "tt1", "l", 0, "Pack", false, "Show", 2020, 2, 0, true,
   "", "", "", 0, 0, 0⟩

def c4Env : dlsvc.DownloadSvcEnv :=
  ⟨fun _ _ => some c4Pack, fun _ => some c4Pack, fun _ => false, [],
   fun _ => true⟩

def c4Media1 : domain.Media := ⟨11, "tt1", 1, 2, "Show", 2020, false, "", 0⟩

def c4Media2 : domain.Media := ⟨12, "tt1", 2, 2, "Show", 2020, false, "", 0⟩

namespace scorer

/-! ### Score range lemmas -/


lemma calculateTitleSimilarity_nonneg (t1 t2 : String) :
    0 ≤ calculateTitleSimilarity t1 t2 := by
  unfold calculateTitleSimilarity
  dsimp only
  split
  · norm_num
  · split
    · norm_num
    · exact le_max_left 0 _

lemma calculateTitleSimilarity_le_one (t1 t2 : String) :
    calculateTitleSimilarity t1 t2 ≤ 1 := by
  unfold calculateTitleSimilarity
  dsimp only
  split
  · norm_num
  · split
    · norm_num
    · refine max_le (by norm_num) ?_
      have hd : (0 : ℚ) ≤ (levenshtein (normalizeTitle t1).toList (normalizeTitle t2).toList : ℚ)
          / ((max (normalizeTitle t1).toList.length (normalizeTitle t2).toList.length : ℕ) : ℚ) :=
        div_nonneg (by positivity) (by positivity)
      linarith

lemma calculateYearScore_bounds (my py : Int) :
    0 ≤ calculateYearScore my py ∧ calculateYearScore my py ≤ 30 := by
  unfold calculateYearScore
  dsimp only
  split_ifs <;> norm_num

lemma seasonEpisodeScore_bounds (m : MediaInfo) (p : parser.ParsedInfo) :
    0 ≤ seasonEpisodeScore m p ∧ seasonEpisodeScore m p ≤ 20 := by
  unfold seasonEpisodeScore
  split
  case isTrue hep =>
    have hnum : 0 < m.Number := by
      have := hep
      unfold MediaInfo.IsEpisode at this
      simp only [Bool.and_eq_true, decide_eq_true_eq] at this
      exact this.2
    split_ifs with h1 h2 h3 h3 h3
    · omega
    · omega
    · omega
    · omega
    · omega
    · omega
  case isFalse => norm_num

lemma goRound_bounds_0_100 (q : ℚ) (h0 : 0 ≤ q) (h1 : q ≤ 100) :
    0 ≤ goRound q ∧ goRound q ≤ 100 := by
  unfold goRound
  rw [if_pos h0]
  constructor
  · rw [Int.le_floor]
    push_cast
    linarith
  · have : ⌊q + 1 / 2⌋ ≤ ⌊(100 : ℚ) + 1 / 2⌋ := Int.floor_le_floor (by linarith)
    calc ⌊q + 1 / 2⌋ ≤ ⌊(100 : ℚ) + 1 / 2⌋ := this
      _ = 100 := by norm_num [Int.floor_eq_iff]

lemma sourceScore_bounds (s : String) : 0 ≤ sourceScore s ∧ sourceScore s ≤ 60 := by
  unfold sourceScore
  split_ifs <;> norm_num

lemma resolutionScore_bounds (s : String) :
    0 ≤ resolutionScore s ∧ resolutionScore s ≤ 30 := by
  unfold resolutionScore
  split_ifs <;> norm_num

lemma codecScore_bounds (s : String) : 0 ≤ codecScore s ∧ codecScore s ≤ 15 := by
  unfold codecScore
  split_ifs <;> norm_num

end scorer

/-- C1 counterexample: the release `Movie.2016.2160p.REMUX.x265.PROPER-GRP`
parses to REMUX (60) + 2160p (30) + x265 (15) + proper (5), so
`QualityScore` returns 110 and is *not* bounded by 100 as the claim
states. -/
theorem c1_counterexample :
    ¬ scorer.QualityScore (parser.Parse "Movie.2016.2160p.REMUX.x265.PROPER-GRP") ≤ 100 := by
  decide

/-- C1 (amended): for every media record and every parsed release,
`ValidationScore` returns an integer in [0, 100]; `QualityScore` returns an
integer in [0, 110] (the REMUX source value of 60 deliberately exceeds the
50-point budget named in the code comment, so 60+30+15+5 = 110 is
reachable and 100 is not an upper bound). -/
theorem c1_amended_bounds (media : scorer.MediaInfo) (parsed : parser.ParsedInfo) :
    0 ≤ scorer.ValidationScore media parsed
      ∧ scorer.ValidationScore media parsed ≤ 100
      ∧ 0 ≤ scorer.QualityScore parsed
      ∧ scorer.QualityScore parsed ≤ 110 := by
  have hsim0 := scorer.calculateTitleSimilarity_nonneg media.Title parsed.Title
  have hsim1 := scorer.calculateTitleSimilarity_le_one media.Title parsed.Title
  have hyear := scorer.calculateYearScore_bounds media.Year parsed.Year
  have hse := scorer.seasonEpisodeScore_bounds media parsed
  have hq : 0 ≤ (scorer.calculateTitleSimilarity media.Title parsed.Title * 50
      + (scorer.calculateYearScore media.Year parsed.Year : ℚ)
      + (scorer.seasonEpisodeScore media parsed : ℚ)) := by
    have h1 : (0 : ℚ) ≤ (scorer.calculateYearScore media.Year parsed.Year : ℚ) := by
      exact_mod_cast hyear.1
    have h2 : (0 : ℚ) ≤ (scorer.seasonEpisodeScore media parsed : ℚ) := by
      exact_mod_cast hse.1
    nlinarith
  have hq100 : (scorer.calculateTitleSimilarity media.Title parsed.Title * 50
      + (scorer.calculateYearScore media.Year parsed.Year : ℚ)
      + (scorer.seasonEpisodeScore media parsed : ℚ)) ≤ 100 := by
    have h1 : (scorer.calculateYearScore media.Year parsed.Year : ℚ) ≤ 30 := by
      exact_mod_cast hyear.2
    have h2 : (scorer.seasonEpisodeScore media parsed : ℚ) ≤ 20 := by
      exact_mod_cast hse.2
    nlinarith
  have hv := scorer.goRound_bounds_0_100 _ hq hq100
  have hs := scorer.sourceScore_bounds parsed.Source
  have hr := scorer.resolutionScore_bounds parsed.Resolution
  have hc := scorer.codecScore_bounds parsed.Codec
  refine ⟨hv.1, hv.2, ?_, ?_⟩ <;>
    · unfold scorer.QualityScore
      split_ifs <;> omega

/-- C10: for an episode media, a parsed release whose episode number equals
the media's episode gets the +10 episode component of `ValidationScore`
even when the parsed season differs from the media's season: the
season/episode block contributes exactly 10 (the +10 season component and
the +10 season-pack bonus, which require season equality, are absent). -/
theorem c10_episode_component (media : scorer.MediaInfo) (parsed : parser.ParsedInfo)
    (h1 : media.IsEpisode = true) (h2 : parsed.Episode = media.Number)
    (h3 : parsed.Season ≠ media.Season) :
    scorer.seasonEpisodeScore media parsed = 10
      ∧ scorer.ValidationScore media parsed
        = scorer.goRound (scorer.calculateTitleSimilarity media.Title parsed.Title * 50
            + (scorer.calculateYearScore media.Year parsed.Year : ℚ) + 10) := by
  have hse : scorer.seasonEpisodeScore media parsed = 10 := by
    unfold scorer.seasonEpisodeScore
    rw [if_pos h1, if_neg h3, if_pos h2]
    norm_num
  refine ⟨hse, ?_⟩
  unfold scorer.ValidationScore
  rw [hse]
  norm_num

namespace services

lemma vsFold_no_pass (cfg : DownloadConfig) (bl : List String) (media : domain.Media)
    (repo : List domain.NZB) (results : List ports.NewsnabResult)
    (h1 : ∀ r ∈ results, scorer.blacklistContains bl r.Title = true
      ∨ failsFloors cfg (mkCandidate media r)) :
    ∀ b0 : Option domain.NZB,
      results.foldl (vsStep cfg bl media repo) ⟨b0, 0, []⟩
        = ⟨results.foldl (bestStep bl media) b0, 0, []⟩ := by
  induction results with
  | nil => intro b0; rfl
  | cons r rs ih =>
    intro b0
    have hr := h1 r (List.mem_cons_self r rs)
    have hrest : ∀ x ∈ rs, scorer.blacklistContains bl x.Title = true
        ∨ failsFloors cfg (mkCandidate media x) :=
      fun x hx => h1 x (List.mem_cons_of_mem r hx)
    rw [List.foldl_cons, List.foldl_cons]
    have hstep : vsStep cfg bl media repo ⟨b0, 0, []⟩ r
        = ⟨bestStep bl media b0 r, 0, []⟩ := by
      by_cases hbl : scorer.blacklistContains bl r.Title = true
      · simp [vsStep, bestStep, hbl]
      · have hff : failsFloors cfg (mkCandidate media r) := by
          rcases hr with hr | hr
          · exact absurd hr hbl
          · exact hr
        simp only [Bool.not_eq_true] at hbl
        unfold vsStep bestStep
        simp only [hbl, Bool.false_eq_true, if_false]
        split_ifs with hc1 hc2 hc3 hc4 <;> try rfl
        rcases hff with h | h | h
        exacts [absurd h hc1, absurd h hc2, absurd h hc3]
    rw [hstep]
    exact ih hrest (bestStep bl media b0 r)

lemma bestFold_all_black (bl : List String) (media : domain.Media)
    (rs : List ports.NewsnabResult)
    (h : ∀ r ∈ rs, scorer.blacklistContains bl r.Title = true) :
    ∀ b0, rs.foldl (bestStep bl media) b0 = b0 := by
  induction rs with
  | nil => intro b0; rfl
  | cons r rest ih =>
    intro b0
    rw [List.foldl_cons]
    have hr := h r (List.mem_cons_self r rest)
    have : bestStep bl media b0 r = b0 := by simp [bestStep, hr]
    rw [this]
    exact ih (fun x hx => h x (List.mem_cons_of_mem r hx)) b0

lemma bestFold_some_mono (bl : List String) (media : domain.Media)
    (rs : List ports.NewsnabResult) :
    ∀ b0 : domain.NZB, (rs.foldl (bestStep bl media) (some b0)).isSome := by
  induction rs with
  | nil => intro b0; rfl
  | cons r rest ih =>
    intro b0
    rw [List.foldl_cons]
    have ha : ∃ a, bestStep bl media (some b0) r = some a := by
      by_cases hbl : scorer.blacklistContains bl r.Title = true
      · exact ⟨b0, by simp [bestStep, hbl]⟩
      · by_cases hgt : (mkCandidate media r).TotalScore > b0.TotalScore
        · exact ⟨mkCandidate media r, by simp [bestStep, hbl, hgt]⟩
        · exact ⟨b0, by simp [bestStep, hbl, hgt]⟩
    rcases ha with ⟨a, ha⟩
    rw [ha]
    exact ih a

lemma bestFold_some_of_ex (bl : List String) (media : domain.Media)
    (rs : List ports.NewsnabResult)
    (hex : ∃ r ∈ rs, scorer.blacklistContains bl r.Title = false) :
    ∀ b0, (rs.foldl (bestStep bl media) b0).isSome := by
  induction rs with
  | nil => exact absurd hex (by simp)
  | cons r rest ih =>
    intro b0
    rw [List.foldl_cons]
    by_cases hbl : scorer.blacklistContains bl r.Title = true
    · have hrest : ∃ x ∈ rest, scorer.blacklistContains bl x.Title = false := by
        rcases hex with ⟨x, hx, hxf⟩
        rcases List.mem_cons.mp hx with rfl | hx'
        · rw [hbl] at hxf; cases hxf
        · exact ⟨x, hx', hxf⟩
      have : bestStep bl media b0 r = b0 := by simp [bestStep, hbl]
      rw [this]
      exact ih hrest b0
    · simp only [Bool.not_eq_true] at hbl
      have : ∃ a, bestStep bl media b0 r = some a := by
        cases b0 with
        | none => exact ⟨mkCandidate media r, by simp [bestStep, hbl]⟩
        | some b =>
          by_cases hgt : (mkCandidate media r).TotalScore > b.TotalScore
          · exact ⟨mkCandidate media r, by simp [bestStep, hbl, hgt]⟩
          · exact ⟨b, by simp [bestStep, hbl, hgt]⟩
      rcases this with ⟨a, ha⟩
      rw [ha]
      exact bestFold_some_mono bl media rest a

lemma bestFold_spec (bl : List String) (media : domain.Media) :
    ∀ (rs : List ports.NewsnabResult) (b0 : Option domain.NZB) (b : domain.NZB),
      rs.foldl (bestStep bl media) b0 = some b →
      (b0 = some b ∨ ∃ r ∈ rs, scorer.blacklistContains bl r.Title = false
          ∧ b = mkCandidate media r)
      ∧ (∀ r ∈ rs, scorer.blacklistContains bl r.Title = false →
          (mkCandidate media r).TotalScore ≤ b.TotalScore)
      ∧ (∀ b₀, b0 = some b₀ → b₀.TotalScore ≤ b.TotalScore) := by
  intro rs
  induction rs with
  | nil =>
    intro b0 b h
    simp only [List.foldl_nil] at h
    exact ⟨Or.inl h, by simp, fun b₀ hb₀ => by rw [hb₀] at h; cases h; exact le_refl _⟩
  | cons r rest ih =>
    intro b0 b h
    rw [List.foldl_cons] at h
    obtain ⟨H1, H2, H3⟩ := ih (bestStep bl media b0 r) b h
    by_cases hbl : scorer.blacklistContains bl r.Title = true
    · have ha : bestStep bl media b0 r = b0 := by simp [bestStep, hbl]
      rw [ha] at H1 H3
      refine ⟨?_, ?_, H3⟩
      · rcases H1 with H1 | ⟨x, hx, hxx⟩
        · exact Or.inl H1
        · exact Or.inr ⟨x, List.mem_cons_of_mem r hx, hxx⟩
      · intro x hx hxf
        rcases List.mem_cons.mp hx with rfl | hx'
        · rw [hbl] at hxf; cases hxf
        · exact H2 x hx' hxf
    · have hblf : scorer.blacklistContains bl r.Title = false := by
        simpa using hbl
      cases b0 with
      | none =>
        have ha : bestStep bl media none r = some (mkCandidate media r) := by
          simp [bestStep, hbl]
        rw [ha] at H1 H3
        refine ⟨?_, ?_, fun b₀ hb₀ => by cases hb₀⟩
        · rcases H1 with H1 | ⟨x, hx, hxx⟩
          · have hb : b = mkCandidate media r := (Option.some_inj.mp H1).symm
            exact Or.inr ⟨r, List.mem_cons_self r rest, hblf, hb⟩
          · exact Or.inr ⟨x, List.mem_cons_of_mem r hx, hxx⟩
        · intro x hx hxf
          rcases List.mem_cons.mp hx with rfl | hx'
          · exact H3 (mkCandidate media x) rfl
          · exact H2 x hx' hxf
      | some b' =>
        by_cases hgt : (mkCandidate media r).TotalScore > b'.TotalScore
        · have ha : bestStep bl media (some b') r = some (mkCandidate media r) := by
            simp [bestStep, hbl, hgt]
          rw [ha] at H1 H3
          refine ⟨?_, ?_, ?_⟩
          · rcases H1 with H1 | ⟨x, hx, hxx⟩
            · have hb : b = mkCandidate media r := (Option.some_inj.mp H1).symm
              exact Or.inr ⟨r, List.mem_cons_self r rest, hblf, hb⟩
            · exact Or.inr ⟨x, List.mem_cons_of_mem r hx, hxx⟩
          · intro x hx hxf
            rcases List.mem_cons.mp hx with rfl | hx'
            · exact H3 (mkCandidate media x) rfl
            · exact H2 x hx' hxf
          · intro b₀ hb₀
            have hb₀eq : b₀ = b' := Option.some_inj.mp hb₀.symm
            subst hb₀eq
            exact le_trans (le_of_lt hgt) (H3 (mkCandidate media r) rfl)
        · have ha : bestStep bl media (some b') r = some b' := by
            simp [bestStep, hbl, hgt]
          rw [ha] at H1 H3
          refine ⟨?_, ?_, ?_⟩
          · rcases H1 with H1 | ⟨x, hx, hxx⟩
            · exact Or.inl (congrArg some (Option.some_inj.mp H1))
            · exact Or.inr ⟨x, List.mem_cons_of_mem r hx, hxx⟩
          · intro x hx hxf
            rcases List.mem_cons.mp hx with rfl | hx'
            · exact le_trans (not_lt.mp hgt) (H3 b' rfl)
            · exact H2 x hx' hxf
          · intro b₀ hb₀
            have hb₀eq : b₀ = b' := Option.some_inj.mp hb₀.symm
            rw [hb₀eq]
            exact H3 b' rfl

lemma findSeasonPack_nil (imdb : String) (season : Int) :
    FindSeasonPackByIMDB [] imdb season = none := rfl

end services

/-- C6: when no search result passes both the blacklist check and the three
score floors, `ValidateAndScore` (against an empty candidate repository)
stores exactly one row — a non-blacklisted candidate whose total score
dominates every other non-blacklisted result — as a fallback; when every
result is blacklisted (in particular when there are no results), it stores
nothing, and the media row is untouched either way (the function never
writes media state). -/
theorem c6_fallback_rule (cfg : services.DownloadConfig) (bl : List String)
    (media : domain.Media) (results : List ports.NewsnabResult)
    (h1 : ∀ r ∈ results, scorer.blacklistContains bl r.Title = true
      ∨ services.failsFloors cfg (services.mkCandidate media r)) :
    ((∀ r ∈ results, scorer.blacklistContains bl r.Title = true) →
        services.ValidateAndScore cfg bl media results [] = [])
    ∧ ((∃ r ∈ results, scorer.blacklistContains bl r.Title = false) →
        ∃ r₀ ∈ results, scorer.blacklistContains bl r₀.Title = false
          ∧ services.ValidateAndScore cfg bl media results []
              = [services.mkCandidate media r₀]
          ∧ ∀ r ∈ results, scorer.blacklistContains bl r.Title = false →
              (services.mkCandidate media r).TotalScore
                ≤ (services.mkCandidate media r₀).TotalScore) := by
  have hfold := services.vsFold_no_pass cfg bl media [] results h1 none
  constructor
  · intro hall
    unfold services.ValidateAndScore
    rw [hfold, services.bestFold_all_black bl media results hall none]
    rfl
  · intro hex
    have hsome := services.bestFold_some_of_ex bl media results hex none
    rcases hb : results.foldl (services.bestStep bl media) none with _ | b
    · rw [hb] at hsome; cases hsome
    · obtain ⟨H1, H2, _⟩ := services.bestFold_spec bl media results none b hb
      rcases H1 with H1 | ⟨r₀, hr₀, hr₀f, hr₀b⟩
      · cases H1
      · refine ⟨r₀, hr₀, hr₀f, ?_, ?_⟩
        · unfold services.ValidateAndScore
          rw [hfold, hb]
          simp [services.findSeasonPack_nil, hr₀b]
        · intro r hr hrf
          rw [← hr₀b]
          exact H2 r hr hrf

/-- C6 witness: one blacklisted result and one result that fails the
quality floor: nothing passes, and the below-floor candidate is stored as
the single fallback row. -/
theorem c6_fallback_rule_witness :
    (∀ r ∈ [wRes1, wRes2],
        scorer.blacklistContains ["badgroup"] r.Title = true
          ∨ services.failsFloors ⟨65, 40, 105⟩ (services.mkCandidate wMedia r))
    ∧ ∃ r₀ ∈ [wRes1, wRes2],
        scorer.blacklistContains ["badgroup"] r₀.Title = false
          ∧ services.ValidateAndScore ⟨65, 40, 105⟩ ["badgroup"] wMedia [wRes1, wRes2] []
              = [services.mkCandidate wMedia r₀]
          ∧ ∀ r ∈ [wRes1, wRes2],
              scorer.blacklistContains ["badgroup"] r.Title = false →
                (services.mkCandidate wMedia r).TotalScore
                  ≤ (services.mkCandidate wMedia r₀).TotalScore := by
  have hh : ∀ r ∈ [wRes1, wRes2],
      scorer.blacklistContains ["badgroup"] r.Title = true
        ∨ services.failsFloors ⟨65, 40, 105⟩ (services.mkCandidate wMedia r) := by
    intro r hr
    rcases List.mem_cons.mp hr with rfl | hr'
    · exact Or.inl (by decide)
    · rcases List.mem_cons.mp hr' with rfl | hr''
      · exact Or.inr (Or.inr (Or.inl (by decide)))
      · cases hr''
  exact ⟨hh, (c6_fallback_rule ⟨65, 40, 105⟩ ["badgroup"] wMedia [wRes1, wRes2] hh).2
    ⟨wRes2, List.mem_cons_of_mem _ (List.mem_cons_self _ _), by decide⟩⟩

/-- C9: a media row with a positive season but episode number 0 is neither
a movie nor an episode, and `SearchForMedia` answers `invalid media type`
without issuing any indexer search. -/
theorem c9_invalid_media_type (m : domain.Media) (h1 : m.Season > 0) (h2 : m.Number = 0)
    (env : services.SearcherEnv) (bl : List String) (cfg : services.DownloadConfig)
    (repo : List domain.NZB) :
    m.IsMovie = false ∧ m.IsEpisode = false
      ∧ services.SearchForMedia env bl cfg m repo = ([], .error "invalid media type") := by
  have hm : m.IsMovie = false := by
    unfold domain.Media.IsMovie
    simp only [Bool.and_eq_false_iff, decide_eq_false_iff_not]
    exact Or.inl (by omega)
  have he : m.IsEpisode = false := by
    unfold domain.Media.IsEpisode
    simp only [Bool.and_eq_false_iff, decide_eq_false_iff_not]
    exact Or.inr (by omega)
  refine ⟨hm, he, ?_⟩
  unfold services.SearchForMedia
  rw [hm, he]
  simp

/-- C9 witness: a concrete season-without-episode media row against a
trivial indexer environment. -/
theorem c9_invalid_media_type_witness :
    (0 : Int) < 2 ∧ (0 : Int) = 0
      ∧ services.SearchForMedia ⟨fun _ => .ok [], fun _ _ _ => .ok [], fun _ _ => .ok []⟩
          [] ⟨65, 40, 105⟩ ⟨1, "tt0000001", 0, 2, "Show", 2020, false, "", 0⟩ []
        = ([], .error "invalid media type") := by
  refine ⟨by norm_num, rfl, ?_⟩
  exact (c9_invalid_media_type ⟨1, "tt0000001", 0, 2, "Show", 2020, false, "", 0⟩
    (by norm_num) rfl ⟨fun _ => .ok [], fun _ _ _ => .ok [], fun _ _ => .ok []⟩
    [] ⟨65, 40, 105⟩ []).2.2

/-- C10 witness: `Show.S05E03...` against an episode media with
season 2, episode 3: episode numbers agree, seasons differ, and the
season/episode block contributes exactly 10. -/
theorem c10_episode_component_witness :
    (⟨"Show", 0, 2, 3⟩ : scorer.MediaInfo).IsEpisode = true
      ∧ (parser.Parse "Show.S05E03.1080p.WEB-DL.x264-G").Episode = 3
      ∧ (parser.Parse "Show.S05E03.1080p.WEB-DL.x264-G").Season ≠ 2
      ∧ scorer.seasonEpisodeScore ⟨"Show", 0, 2, 3⟩
          (parser.Parse "Show.S05E03.1080p.WEB-DL.x264-G") = 10 := by
  refine ⟨by decide, by decide, by decide, ?_⟩
  exact (c10_episode_component ⟨"Show", 0, 2, 3⟩
    (parser.Parse "Show.S05E03.1080p.WEB-DL.x264-G")
    (by decide) (by decide) (by decide)).1

/-- C2 (code evaluated at the failing input): `SyncEpisodes` queues every
watchlist show with an episode limit of 3 — not 1 as the claim (and the
code's own fetch comment, "watchlist shows (1 episode each)") states —
while the strategy controller's watchlist path does target exactly one
episode. -/
theorem c2_watchlist_episode_limits (wl fav : List ports.TraktShow) (lim : Int) :
    ((services.syncEpisodeJobs wl fav lim).map
        (fun j => (j.showType, j.episodeLimit))
      = wl.map (fun _ => ("watchlist", (3 : Int)))
        ++ fav.map (fun _ => ("favorite", lim)))
    ∧ ∀ (ep : trakt.Episode) (un : List trakt.Episode),
        controllers.nextEpisodeStrategy ⟨some ep, un⟩
          = .ok ⟨.singleEpisode, [ep], none⟩ := by
  constructor
  · unfold services.syncEpisodeJobs
    rw [List.map_append, List.map_map, List.map_map]
    rfl
  · intro ep un
    rfl

/-- C5: the cleanup of items removed from the upstream lists runs in a
cycle exactly when all five list syncs (favorites shows, favorites movies,
watchlist shows, watchlist movies, watched) completed without error; when
any of them failed, the cleanup step is absent from the cycle, so that
cleanup deletes nothing. -/
theorem c5_cleanup_gated_on_sync (o : controllers.SyncOutcomes) :
    controllers.SyncAction.cleanupRemovedFromTrakt ∈ controllers.SyncAll o
      ↔ (o.favShowsFail = false ∧ o.favMoviesFail = false ∧ o.wlShowsFail = false
          ∧ o.wlMoviesFail = false ∧ o.watchedFail = false) := by
  rcases o with ⟨m, a, b, c, d, e, f⟩
  cases a <;> cases b <;> cases c <;> cases d <;> cases e <;>
    simp [controllers.SyncAll]

namespace controllers

/-! ### Store lemmas: lookups after key-based overwrites -/

lemma updNZB_media (db : DB) (n : models.NZB) : (UpdateNZB db n).media = db.media := rfl

lemma updMedia_nzbs (db : DB) (m : models.Media) : (UpdateMedia db m).nzbs = db.nzbs := rfl

lemma getMedia_updNZB (db : DB) (n : models.NZB) (i : Nat) :
    GetMediaByID (UpdateNZB db n) i = GetMediaByID db i := rfl

lemma getNZB_updMedia (db : DB) (m : models.Media) (i : Nat) :
    GetNZBByID (UpdateMedia db m) i = GetNZBByID db i := rfl

lemma updNZB_updNZB (db : DB) (a b : models.NZB) (h : a.ID = b.ID) :
    UpdateNZB (UpdateNZB db a) b = UpdateNZB db b := by
  unfold UpdateNZB
  simp only [List.map_map]
  congr 1
  apply List.map_congr_left
  intro x _
  by_cases hx : x.ID = a.ID
  · simp [Function.comp, hx, h ▸ hx, ← h]
  · simp [Function.comp, hx]

lemma updMedia_updMedia (db : DB) (a b : models.Media) (h : a.ID = b.ID) :
    UpdateMedia (UpdateMedia db a) b = UpdateMedia db b := by
  unfold UpdateMedia
  simp only [List.map_map]
  congr 1
  apply List.map_congr_left
  intro x _
  by_cases hx : x.ID = a.ID
  · simp [Function.comp, hx, h ▸ hx, ← h]
  · simp [Function.comp, hx]

lemma updMedia_updNZB_comm (db : DB) (m : models.Media) (n : models.NZB) :
    UpdateNZB (UpdateMedia db m) n = UpdateMedia (UpdateNZB db n) m := rfl

lemma filterHead_prop (l : List models.NZB) (p : models.NZB → Bool) (n : models.NZB)
    (h : (l.filter p).head? = some n) : p n = true := by
  rcases hfl : l.filter p with _ | ⟨a, as⟩
  · rw [hfl] at h; cases h
  · rw [hfl] at h
    have ha : a = n := by simpa using h
    subst ha
    have : a ∈ l.filter p := by rw [hfl]; exact List.mem_cons_self a as
    exact (List.mem_filter.mp this).2

lemma filterHead_mem (l : List models.NZB) (p : models.NZB → Bool) (n : models.NZB)
    (h : (l.filter p).head? = some n) : n ∈ l := by
  rcases hfl : l.filter p with _ | ⟨a, as⟩
  · rw [hfl] at h; cases h
  · rw [hfl] at h
    have ha : a = n := by simpa using h
    subst ha
    have : a ∈ l.filter p := by rw [hfl]; exact List.mem_cons_self a as
    exact (List.mem_filter.mp this).1

lemma filterHead_jobID_after_upd (l : List models.NZB) (j : String) (n n1 : models.NZB)
    (h : (l.filter (fun x => x.TorBoxJobID = j)).head? = some n)
    (hid : n1.ID = n.ID) (hj : n1.TorBoxJobID = j) :
    ((l.map (fun x => if x.ID = n1.ID then n1 else x)).filter
      (fun x => x.TorBoxJobID = j)).head? = some n1 := by
  induction l with
  | nil => simp at h
  | cons x xs ih =>
    by_cases px : x.TorBoxJobID = j
    · have hx : x = n := by
        rw [List.filter_cons_of_pos (by simpa using px)] at h
        simpa using h
      subst hx
      simp only [List.map_cons, if_pos hid.symm]
      rw [List.filter_cons_of_pos (by simpa using hj)]
      rfl
    · rw [List.filter_cons_of_neg (by simpa using px)] at h
      by_cases qx : x.ID = n1.ID
      · simp only [List.map_cons, if_pos qx]
        rw [List.filter_cons_of_pos (by simpa using hj)]
        rfl
      · simp only [List.map_cons, if_neg qx]
        rw [List.filter_cons_of_neg (by simpa using px)]
        exact ih h

lemma findId_media_after_upd (l : List models.Media) (i : Nat) (m m1 : models.Media)
    (h : l.find? (fun x => x.ID = i) = some m) (hid : m1.ID = i) :
    (l.map (fun x => if x.ID = m1.ID then m1 else x)).find? (fun x => x.ID = i)
      = some m1 := by
  induction l with
  | nil => simp at h
  | cons x xs ih =>
    by_cases px : x.ID = i
    · have hcond : x.ID = m1.ID := by rw [hid]; exact px
      simp only [List.map_cons, if_pos hcond]
      rw [List.find?_cons_of_pos _ (by simpa using hid)]
    · rw [List.find?_cons_of_neg _ (by simpa using px)] at h
      by_cases qx : x.ID = m1.ID
      · simp only [List.map_cons, if_pos qx]
        rw [List.find?_cons_of_pos _ (by simpa using hid)]
      · simp only [List.map_cons, if_neg qx]
        rw [List.find?_cons_of_neg _ (by simpa using px)]
        exact ih h

lemma findId_nzb_after_upd (l : List models.NZB) (i : Nat) (n n1 : models.NZB)
    (h : l.find? (fun x => x.ID = i) = some n) (hid : n1.ID = i) :
    (l.map (fun x => if x.ID = n1.ID then n1 else x)).find? (fun x => x.ID = i)
      = some n1 := by
  induction l with
  | nil => simp at h
  | cons x xs ih =>
    by_cases px : x.ID = i
    · have hcond : x.ID = n1.ID := by rw [hid]; exact px
      simp only [List.map_cons, if_pos hcond]
      rw [List.find?_cons_of_pos _ (by simpa using hid)]
    · rw [List.find?_cons_of_neg _ (by simpa using px)] at h
      by_cases qx : x.ID = n1.ID
      · simp only [List.map_cons, if_pos qx]
        rw [List.find?_cons_of_pos _ (by simpa using hid)]
      · simp only [List.map_cons, if_neg qx]
        rw [List.find?_cons_of_neg _ (by simpa using px)]
        exact ih h

lemma findId_nzb_upd_other (l : List models.NZB) (i : Nat) (k : models.NZB)
    (hk : k.ID ≠ i) :
    (l.map (fun x => if x.ID = k.ID then k else x)).find? (fun x => x.ID = i)
      = l.find? (fun x => x.ID = i) := by
  induction l with
  | nil => rfl
  | cons x xs ih =>
    by_cases qx : x.ID = k.ID
    · simp only [List.map_cons, if_pos qx]
      rw [List.find?_cons_of_neg _ (by simpa using hk),
        List.find?_cons_of_neg _ (by simp [qx, hk])]
      exact ih
    · simp only [List.map_cons, if_neg qx]
      by_cases px : x.ID = i
      · rw [List.find?_cons_of_pos _ (by simpa using px),
          List.find?_cons_of_pos _ (by simpa using px)]
      · rw [List.find?_cons_of_neg _ (by simpa using px),
          List.find?_cons_of_neg _ (by simpa using px)]
        exact ih

lemma findId_of_mem_nodup (l : List models.NZB) (n : models.NZB)
    (hmem : n ∈ l) (hnodup : (l.map models.NZB.ID).Nodup) :
    l.find? (fun x => x.ID = n.ID) = some n := by
  induction l with
  | nil => cases hmem
  | cons x xs ih =>
    rcases List.mem_cons.mp hmem with rfl | hmem'
    · rw [List.find?_cons_of_pos _ (by simp)]
    · have hcons : models.NZB.ID x ∉ List.map models.NZB.ID xs
          ∧ (List.map models.NZB.ID xs).Nodup := by
        have := hnodup
        simp only [List.map_cons, List.nodup_cons] at this
        exact this
      by_cases px : x.ID = n.ID
      · exfalso
        have hmm : n.ID ∈ List.map models.NZB.ID xs := List.mem_map_of_mem _ hmem'
        rw [← px] at hmm
        exact hcons.1 hmm
      · rw [List.find?_cons_of_neg _ (by simpa using px)]
        exact ih hmem' hcons.2

lemma nzb_status_eta (n : models.NZB) (s : models.NZBStatus) (h : n.Status = s) :
    ({ n with Status := s } : models.NZB) = n := by
  cases n
  cases h
  rfl

lemma media_status_eta (m : models.Media) (s : models.Status) (h : m.Status = s) :
    ({ m with Status := s } : models.Media) = m := by
  cases m
  cases h
  rfl

lemma getMediaByID_prop (db : DB) (i : Nat) (m : models.Media)
    (h : GetMediaByID db i = some m) : m.ID = i := by
  unfold GetMediaByID at h
  have := List.find?_some h
  simpa using this

lemma getNZBByJobID_props (db : DB) (j : String) (n : models.NZB)
    (h : GetNZBByTorBoxJobID db j = some n) : n.TorBoxJobID = j ∧ n ∈ db.nzbs := by
  refine ⟨?_, filterHead_mem _ _ _ h⟩
  have := filterHead_prop _ _ _ h
  simpa using this

lemma getBestCandidate_props (db : DB) (i : Nat) (c : models.NZB)
    (h : GetBestCandidateNZB db i = some c) :
    c.MediaID = i ∧ c.Status = .candidate ∧ c ∈ db.nzbs := by
  have hp := filterHead_prop _ _ _ h
  have hm := filterHead_mem _ _ _ h
  simp only [Bool.and_eq_true, decide_eq_true_eq] at hp
  exact ⟨hp.1, hp.2, hm⟩

lemma DownloadNZB_success (env : DownloadEnv) (db : DB) (nzb : models.NZB)
    (m : models.Media)
    (hf : env.nzbFetchOk nzb.ID = true) (hc : env.createOk nzb.ID = true)
    (hcd : env.cachedDetail nzb.ID = false)
    (hm : GetMediaByID db nzb.MediaID = some m) :
    DownloadNZB env db nzb =
      (UpdateMedia
        (UpdateNZB db
          { nzb with
            TorBoxJobID := env.jobIdFor nzb.ID
            TorBoxHash := env.hashFor nzb.ID
            Status := .downloading })
        { m with Status := .downloading },
       true, [.jobCreated nzb.ID (env.jobIdFor nzb.ID)]) := by
  unfold DownloadNZB
  simp only [hf, hc, hcd, Bool.not_true, Bool.false_eq_true, if_false,
    getMedia_updNZB, hm]

lemma Retry_none (env : DownloadEnv) (db : DB) (i : Nat)
    (h : GetBestCandidateNZB db i = none) :
    RetryWithNextCandidate env db i = (db, false, []) := by
  unfold RetryWithNextCandidate
  rw [h]

lemma Retry_some_success (env : DownloadEnv) (db : DB) (i : Nat)
    (c : models.NZB) (m : models.Media)
    (h : GetBestCandidateNZB db i = some c)
    (hf : env.nzbFetchOk c.ID = true) (hc : env.createOk c.ID = true)
    (hcd : env.cachedDetail c.ID = false)
    (hm : GetMediaByID db i = some m) :
    RetryWithNextCandidate env db i =
      (UpdateMedia
        (UpdateNZB db
          { c with
            TorBoxJobID := env.jobIdFor c.ID
            TorBoxHash := env.hashFor c.ID
            Status := .downloading })
        { m with Status := .downloading },
       true, [.jobCreated c.ID (env.jobIdFor c.ID)]) := by
  unfold RetryWithNextCandidate
  rw [h]
  dsimp only
  have hMid : c.MediaID = i := (getBestCandidate_props db i c h).1
  have hmedia : GetMediaByID (UpdateNZB db { c with Status := .selected })
      ({ c with Status := .selected } : models.NZB).MediaID = some m := by
    rw [getMedia_updNZB]
    simpa [hMid] using hm
  rw [DownloadNZB_success env _ _ m (by simpa using hf) (by simpa using hc)
    (by simpa using hcd) hmedia]
  dsimp only
  rw [updNZB_updNZB db ({ c with Status := models.NZBStatus.selected })]
  rfl

lemma upd_pair_collapse (db : DB) (n1 : models.NZB) (m1 : models.Media) :
    UpdateMedia (UpdateNZB (UpdateMedia (UpdateNZB db n1) m1) n1) m1
      = UpdateMedia (UpdateNZB db n1) m1 := by
  rw [updMedia_updNZB_comm, updNZB_updNZB _ n1 n1 rfl, updMedia_updMedia _ m1 m1 rfl]

lemma webhook_lookup_after (db : DB) (jobID : String) (n : models.NZB)
    (m : models.Media) (n1 : models.NZB) (m1 : models.Media)
    (hn : GetNZBByTorBoxJobID db jobID = some n)
    (hm : GetMediaByID db n.MediaID = some m)
    (hid : n1.ID = n.ID) (hj : n1.TorBoxJobID = jobID)
    (hmid : n1.MediaID = n.MediaID) (hmid1 : m1.ID = m.ID) :
    GetNZBByTorBoxJobID (UpdateMedia (UpdateNZB db n1) m1) jobID = some n1
      ∧ GetMediaByID (UpdateMedia (UpdateNZB db n1) m1) n1.MediaID = some m1 := by
  constructor
  · show (((UpdateMedia (UpdateNZB db n1) m1).nzbs.filter
      (fun x => x.TorBoxJobID = jobID)).head?) = some n1
    have hnzbs : (UpdateMedia (UpdateNZB db n1) m1).nzbs
        = db.nzbs.map (fun x => if x.ID = n1.ID then n1 else x) := rfl
    rw [hnzbs]
    exact filterHead_jobID_after_upd db.nzbs jobID n n1 hn hid hj
  · show ((UpdateMedia (UpdateNZB db n1) m1).media.find?
      (fun x => x.ID = n1.MediaID)) = some m1
    have hmm : (UpdateMedia (UpdateNZB db n1) m1).media
        = db.media.map (fun x => if x.ID = m1.ID then m1 else x) := rfl
    rw [hmm, hmid]
    exact findId_media_after_upd db.media n.MediaID m m1 hm
      (by rw [hmid1]; exact getMediaByID_prop db _ m hm)

end controllers

/-- C7 (amended): applying the same webhook twice is a no-op on the second
application for `completed`/`success` events and for unknown statuses; the
`failed` branch is excluded — each `failed` delivery increments the retry
count again and triggers a further retry (see the counterexample). -/
theorem c7_amended_idempotent (env : controllers.DownloadEnv) (db : controllers.DB)
    (jobID status errorMsg : String)
    (h : (status = "completed" ∨ status = "success")
      ∨ (¬status = "failed" ∧ ¬status = "error")) :
    controllers.HandleWebhook env
        (controllers.HandleWebhook env db jobID status errorMsg).1 jobID status errorMsg
      = controllers.HandleWebhook env db jobID status errorMsg := by
  rcases hcase : controllers.GetNZBByTorBoxJobID db jobID with _ | n
  · have h1 : controllers.HandleWebhook env db jobID status errorMsg = (db, []) := by
      simp only [controllers.HandleWebhook, hcase]
    rw [h1]
    exact h1
  · rcases hmed : controllers.GetMediaByID db n.MediaID with _ | m
    · have h1 : controllers.HandleWebhook env db jobID status errorMsg = (db, []) := by
        simp only [controllers.HandleWebhook, hcase, hmed]
      rw [h1]
      exact h1
    · obtain ⟨hjob, _⟩ := controllers.getNZBByJobID_props db jobID n hcase
      have hmid : m.ID = n.MediaID := controllers.getMediaByID_prop db _ m hmed
      by_cases hcs : status = "completed" ∨ status = "success"
      · -- completed branch: both applications write the completed records
        have h1 : controllers.HandleWebhook env db jobID status errorMsg
            = (controllers.UpdateMedia
                (controllers.UpdateNZB db { n with Status := .completed })
                { m with Status := .completed }, []) := by
          simp only [controllers.HandleWebhook, hcase, hmed]
          rw [if_pos hcs]
        obtain ⟨hl1, hl2⟩ := controllers.webhook_lookup_after db jobID n m
          ({ n with Status := .completed }) ({ m with Status := .completed })
          hcase hmed rfl hjob rfl rfl
        rw [h1]
        simp only [controllers.HandleWebhook, hl1, hl2]
        rw [if_pos hcs]
        rw [controllers.upd_pair_collapse]
      · rcases h with h | ⟨hf, he⟩
        · exact absurd h hcs
        · -- unknown branch: records are written back unchanged
          have hfe : ¬(status = "failed" ∨ status = "error") := by
            rintro (hx | hx)
            exacts [hf hx, he hx]
          have h1 : controllers.HandleWebhook env db jobID status errorMsg
              = (controllers.UpdateMedia (controllers.UpdateNZB db n) m, []) := by
            simp only [controllers.HandleWebhook, hcase, hmed]
            rw [if_neg hcs, if_neg hfe]
          obtain ⟨hl1, hl2⟩ := controllers.webhook_lookup_after db jobID n m n m
            hcase hmed rfl hjob rfl rfl
          rw [h1]
          simp only [controllers.HandleWebhook, hl1, hl2]
          rw [if_neg hcs, if_neg hfe]
          rw [controllers.upd_pair_collapse]

/-- C7 counterexample: applying the same `failed` webhook twice is not a
no-op — the second application increments the NZB's retry count again (to
2) and, the candidate pool now being empty, flips the media to failed, so
the store after two applications differs from the store after one. -/
theorem c7_counterexample :
    (controllers.HandleWebhook whEnv
        (controllers.HandleWebhook whEnv c7DB "j1" "failed" "e").1 "j1" "failed" "e").1
      ≠ (controllers.HandleWebhook whEnv c7DB "j1" "failed" "e").1 := by
  decide

/-- C7 amended witness: applying a `completed` webhook twice to the
concrete store equals applying it once. -/
theorem c7_amended_idempotent_witness :
    ((("completed" : String) = "completed" ∨ ("completed" : String) = "success")
      ∨ (¬("completed" : String) = "failed" ∧ ¬("completed" : String) = "error"))
    ∧ controllers.HandleWebhook whEnv
        (controllers.HandleWebhook whEnv c7DB "j1" "completed" "").1 "j1" "completed" ""
      = controllers.HandleWebhook whEnv c7DB "j1" "completed" "" := by
  refine ⟨Or.inl (Or.inl rfl), ?_⟩
  exact c7_amended_idempotent whEnv c7DB "j1" "completed" "" (Or.inl (Or.inl rfl))

/-- C8: when sync re-observes an existing media row, both the favorites and
the watchlist paths map a failed status to pending and leave every other
status — completed included — unchanged, and they touch only the IMDB id,
the source, the presence flag, and the last-seen tick: type, title, year,
season/episode, watched flag and key are all preserved. -/
theorem c8_sync_status_reset (m : models.Media) (imdbID : String) (now : Nat) :
    ((controllers.syncFavoritesUpdateExisting m imdbID now).Status
        = (if m.Status = .failed then .pending else m.Status))
    ∧ ((controllers.syncWatchlistUpdateExisting m imdbID now).Status
        = (if m.Status = .failed then .pending else m.Status))
    ∧ (controllers.syncFavoritesUpdateExisting m imdbID now)
        = { m with
            IMDBId := imdbID, InTrakt := true, LastSeenInTrakt := now
            Source := .favorites
            Status := if m.Status = .failed then .pending else m.Status }
    ∧ (controllers.syncWatchlistUpdateExisting m imdbID now)
        = { m with
            IMDBId := imdbID, InTrakt := true, LastSeenInTrakt := now
            Source := .watchlist
            Status := if m.Status = .failed then .pending else m.Status } := by
  exact ⟨rfl, rfl, rfl, rfl⟩

/-- C3 counterexample: after the first five candidates of one media all
fail via webhook, the fifth candidate's `retry_count` is 1 — not 5 as the
claim states — because the counter is per NZB record and each candidate
fails exactly once; the media still ends failed, by candidate exhaustion,
with no further candidate selected. -/
theorem c3_counterexample :
    (controllers.GetNZBByID c3Final 5).map models.NZB.RetryCount = some 1
      ∧ ¬((controllers.GetNZBByID c3Final 5).map models.NZB.RetryCount = some 5)
      ∧ (controllers.GetMediaByID c3Final 1).map models.Media.Status = some .failed
      ∧ controllers.GetBestCandidateNZB c3Final 1 = none := by
  decide

/-- C3 (amended): a `failed` webhook deletes the TorBox job (when a job id
is present), marks the matched NZB failed with the reported reason and
increments *that record's* retry count; when the incremented count is
below `maxRetries` the next-best candidate — if one exists — is promoted
and enqueued with a fresh job id while the media keeps its prior status,
and the media is marked failed when either no candidate remains or the
count has reached `maxRetries` (in which case nothing further is
enqueued).  Exhaustion of a media's candidates therefore happens with each
candidate at retry count 1, not 5. -/
theorem c3_amended_failed_webhook (env : controllers.DownloadEnv)
    (db : controllers.DB) (jobID errorMsg : String)
    (n : models.NZB) (m : models.Media)
    (hn : controllers.GetNZBByTorBoxJobID db jobID = some n)
    (hm : controllers.GetMediaByID db n.MediaID = some m)
    (hnstat : n.Status = .downloading)
    (hnodup : (db.nzbs.map models.NZB.ID).Nodup)
    (hfetch : ∀ i, env.nzbFetchOk i = true)
    (hcreate : ∀ i, env.createOk i = true)
    (hcached : ∀ i, env.cachedDetail i = false) :
    (controllers.GetNZBByID (controllers.HandleWebhook env db jobID "failed" errorMsg).1 n.ID
        = some (controllers.failedNZB n errorMsg))
    ∧ (n.TorBoxJobID ≠ "" →
        controllers.TorBoxEffect.deleteJob n.TorBoxJobID
          ∈ (controllers.HandleWebhook env db jobID "failed" errorMsg).2)
    ∧ (n.RetryCount + 1 < controllers.maxRetries →
        (∀ c, controllers.GetBestCandidateNZB db n.MediaID = some c →
          controllers.GetNZBByID
              (controllers.HandleWebhook env db jobID "failed" errorMsg).1 c.ID
              = some { c with
                  TorBoxJobID := env.jobIdFor c.ID
                  TorBoxHash := env.hashFor c.ID
                  Status := .downloading }
            ∧ controllers.TorBoxEffect.jobCreated c.ID (env.jobIdFor c.ID)
                ∈ (controllers.HandleWebhook env db jobID "failed" errorMsg).2
            ∧ controllers.GetMediaByID
                (controllers.HandleWebhook env db jobID "failed" errorMsg).1 m.ID
                = some m)
        ∧ (controllers.GetBestCandidateNZB db n.MediaID = none →
            controllers.GetMediaByID
                (controllers.HandleWebhook env db jobID "failed" errorMsg).1 m.ID
              = some { m with Status := .failed }
            ∧ ∀ i j, controllers.TorBoxEffect.jobCreated i j
                ∉ (controllers.HandleWebhook env db jobID "failed" errorMsg).2))
    ∧ (¬(n.RetryCount + 1 < controllers.maxRetries) →
        controllers.GetMediaByID
            (controllers.HandleWebhook env db jobID "failed" errorMsg).1 m.ID
          = some { m with Status := .failed }
        ∧ ∀ i j, controllers.TorBoxEffect.jobCreated i j
            ∉ (controllers.HandleWebhook env db jobID "failed" errorMsg).2) := by
  obtain ⟨hjob, hmemn⟩ := controllers.getNZBByJobID_props db jobID n hn
  have hmid : m.ID = n.MediaID := controllers.getMediaByID_prop db _ m hm
  have hfind_n : db.nzbs.find? (fun x => x.ID = n.ID) = some n :=
    controllers.findId_of_mem_nodup db.nzbs n hmemn hnodup
  have hm2 : db.media.find? (fun x => x.ID = m.ID) = some m := by
    rw [hmid]
    exact hm
  have hncs : ¬(("failed" : String) = "completed" ∨ ("failed" : String) = "success") := by
    decide
  by_cases hret : n.RetryCount + 1 < controllers.maxRetries
  · rcases hcand : controllers.GetBestCandidateNZB db n.MediaID with _ | c
    · -- retry possible but no candidate left: media goes failed
      have hr := controllers.Retry_none env db n.MediaID hcand
      have hH : controllers.HandleWebhook env db jobID "failed" errorMsg
          = (controllers.UpdateMedia
              (controllers.UpdateNZB db (controllers.failedNZB n errorMsg))
              { m with Status := .failed },
             controllers.deleteJobEffects n ++ []) := by
        simp only [controllers.HandleWebhook, hn, hm, hr, hret, true_or, if_true]
        rw [if_neg hncs]
        simp only [Bool.false_eq_true, if_false]
      rw [hH]
      refine ⟨?_, ?_, ?_, fun hc => absurd hret hc⟩
      · show ((controllers.UpdateMedia _ _).nzbs.find? (fun x => x.ID = n.ID)) = _
        have heq : (controllers.UpdateMedia
              (controllers.UpdateNZB db (controllers.failedNZB n errorMsg))
              { m with Status := .failed }).nzbs
            = db.nzbs.map (fun x =>
                if x.ID = (controllers.failedNZB n errorMsg).ID
                then controllers.failedNZB n errorMsg else x) := rfl
        rw [heq]
        exact controllers.findId_nzb_after_upd db.nzbs n.ID n _ hfind_n rfl
      · intro hne
        simp [controllers.deleteJobEffects, hne]
      · intro _
        constructor
        · intro c hc
          cases hc
        · intro _
          constructor
          · show ((controllers.UpdateMedia _ _).media.find? (fun x => x.ID = m.ID)) = _
            have heq : (controllers.UpdateMedia
                  (controllers.UpdateNZB db (controllers.failedNZB n errorMsg))
                  { m with Status := .failed }).media
                = db.media.map (fun x =>
                    if x.ID = ({ m with Status := models.Status.failed } : models.Media).ID
                    then { m with Status := models.Status.failed } else x) := rfl
            rw [heq]
            exact controllers.findId_media_after_upd db.media m.ID m _ hm2 rfl
          · intro i j hin
            rw [List.append_nil] at hin
            unfold controllers.deleteJobEffects at hin
            split at hin <;> simp at hin
    · -- retry possible with a candidate: it is promoted and enqueued
      obtain ⟨hcmid, hcstat, hcmem⟩ := controllers.getBestCandidate_props db _ c hcand
      have hcneq : c ≠ n := by
        intro e
        rw [e, hnstat] at hcstat
        cases hcstat
      have hcid : c.ID ≠ n.ID := by
        intro e
        have h1 : db.nzbs.find? (fun x => x.ID = c.ID) = some c :=
          controllers.findId_of_mem_nodup db.nzbs c hcmem hnodup
        rw [e, hfind_n] at h1
        exact hcneq (by injection h1 with h1; exact h1.symm)
      have hnid : (controllers.failedNZB n errorMsg).ID ≠ c.ID := by
        intro e
        exact hcid (by simpa [controllers.failedNZB] using e.symm)
      have hr := controllers.Retry_some_success env db n.MediaID c m hcand
        (hfetch c.ID) (hcreate c.ID) (hcached c.ID) hm
      have hH : controllers.HandleWebhook env db jobID "failed" errorMsg
          = (controllers.UpdateMedia
              (controllers.UpdateNZB
                (controllers.UpdateMedia
                  (controllers.UpdateNZB db
                    { c with
                      TorBoxJobID := env.jobIdFor c.ID
                      TorBoxHash := env.hashFor c.ID
                      Status := .downloading })
                  { m with Status := .downloading })
                (controllers.failedNZB n errorMsg))
              m,
             controllers.deleteJobEffects n
               ++ [controllers.TorBoxEffect.jobCreated c.ID (env.jobIdFor c.ID)]) := by
        simp only [controllers.HandleWebhook, hn, hm, hr, hret, true_or, if_true]
        rw [if_neg hncs]
      rw [hH]
      refine ⟨?_, ?_, ?_, fun hc => absurd hret hc⟩
      · show ((controllers.UpdateMedia _ _).nzbs.find? (fun x => x.ID = n.ID)) = _
        have heq : (controllers.UpdateMedia
              (controllers.UpdateNZB
                (controllers.UpdateMedia
                  (controllers.UpdateNZB db
                    { c with
                      TorBoxJobID := env.jobIdFor c.ID
                      TorBoxHash := env.hashFor c.ID
                      Status := .downloading })
                  { m with Status := .downloading })
                (controllers.failedNZB n errorMsg))
              m).nzbs
            = (db.nzbs.map (fun x =>
                if x.ID = ({ c with
                    TorBoxJobID := env.jobIdFor c.ID
                    TorBoxHash := env.hashFor c.ID
                    Status := models.NZBStatus.downloading } : models.NZB).ID
                then { c with
                    TorBoxJobID := env.jobIdFor c.ID
                    TorBoxHash := env.hashFor c.ID
                    Status := models.NZBStatus.downloading } else x)).map (fun x =>
                if x.ID = (controllers.failedNZB n errorMsg).ID
                then controllers.failedNZB n errorMsg else x) := rfl
        rw [heq]
        refine controllers.findId_nzb_after_upd _ n.ID n _ ?_ rfl
        rw [controllers.findId_nzb_upd_other db.nzbs n.ID
          ({ c with
            TorBoxJobID := env.jobIdFor c.ID
            TorBoxHash := env.hashFor c.ID
            Status := models.NZBStatus.downloading }) hcid]
        exact hfind_n
      · intro hne
        simp [controllers.deleteJobEffects, hne]
      · intro _
        constructor
        · intro c2 hc2
          have hcc : c2 = c := by injection hc2 with h1; exact h1.symm
          rw [hcc]
          refine ⟨?_, ?_, ?_⟩
          · show ((controllers.UpdateMedia _ _).nzbs.find? (fun x => x.ID = c.ID)) = _
            have heq : (controllers.UpdateMedia
                  (controllers.UpdateNZB
                    (controllers.UpdateMedia
                      (controllers.UpdateNZB db
                        { c with
                          TorBoxJobID := env.jobIdFor c.ID
                          TorBoxHash := env.hashFor c.ID
                          Status := .downloading })
                      { m with Status := .downloading })
                    (controllers.failedNZB n errorMsg))
                  m).nzbs
                = (db.nzbs.map (fun x =>
                    if x.ID = ({ c with
                        TorBoxJobID := env.jobIdFor c.ID
                        TorBoxHash := env.hashFor c.ID
                        Status := models.NZBStatus.downloading } : models.NZB).ID
                    then { c with
                        TorBoxJobID := env.jobIdFor c.ID
                        TorBoxHash := env.hashFor c.ID
                        Status := models.NZBStatus.downloading } else x)).map (fun x =>
                    if x.ID = (controllers.failedNZB n errorMsg).ID
                    then controllers.failedNZB n errorMsg else x) := rfl
            rw [heq]
            rw [controllers.findId_nzb_upd_other _ c.ID (controllers.failedNZB n errorMsg)
              hnid]
            refine controllers.findId_nzb_after_upd db.nzbs c.ID c _ ?_ rfl
            exact controllers.findId_of_mem_nodup db.nzbs c hcmem hnodup
          · exact List.mem_append_right _ (List.mem_singleton.mpr rfl)
          · show ((controllers.UpdateMedia _ _).media.find? (fun x => x.ID = m.ID)) = _
            have heq : (controllers.UpdateMedia
                  (controllers.UpdateNZB
                    (controllers.UpdateMedia
                      (controllers.UpdateNZB db
                        { c with
                          TorBoxJobID := env.jobIdFor c.ID
                          TorBoxHash := env.hashFor c.ID
                          Status := .downloading })
                      { m with Status := .downloading })
                    (controllers.failedNZB n errorMsg))
                  m).media
                = (db.media.map (fun x =>
                    if x.ID = ({ m with Status := models.Status.downloading } : models.Media).ID
                    then { m with Status := models.Status.downloading } else x)).map (fun x =>
                    if x.ID = m.ID then m else x) := rfl
            rw [heq]
            refine controllers.findId_media_after_upd _ m.ID
              ({ m with Status := models.Status.downloading }) m ?_ rfl
            exact controllers.findId_media_after_upd db.media m.ID m _ hm2 rfl
        · intro hnone
          cases hnone
  · -- maxRetries reached: the media is marked failed, nothing is enqueued
    have hH : controllers.HandleWebhook env db jobID "failed" errorMsg
        = (controllers.UpdateMedia
            (controllers.UpdateNZB db (controllers.failedNZB n errorMsg))
            { m with Status := .failed },
           controllers.deleteJobEffects n) := by
      simp only [controllers.HandleWebhook, hn, hm, true_or, if_true]
      rw [if_neg hncs, if_neg hret]
    rw [hH]
    refine ⟨?_, ?_, fun hc => absurd hc hret, fun _ => ?_⟩
    · show ((controllers.UpdateMedia _ _).nzbs.find? (fun x => x.ID = n.ID)) = _
      have heq : (controllers.UpdateMedia
            (controllers.UpdateNZB db (controllers.failedNZB n errorMsg))
            { m with Status := .failed }).nzbs
          = db.nzbs.map (fun x =>
              if x.ID = (controllers.failedNZB n errorMsg).ID
              then controllers.failedNZB n errorMsg else x) := rfl
      rw [heq]
      exact controllers.findId_nzb_after_upd db.nzbs n.ID n _ hfind_n rfl
    · intro hne
      simp [controllers.deleteJobEffects, hne]
    · constructor
      · show ((controllers.UpdateMedia _ _).media.find? (fun x => x.ID = m.ID)) = _
        have heq : (controllers.UpdateMedia
              (controllers.UpdateNZB db (controllers.failedNZB n errorMsg))
              { m with Status := .failed }).media
            = db.media.map (fun x =>
                if x.ID = ({ m with Status := models.Status.failed } : models.Media).ID
                then { m with Status := models.Status.failed } else x) := rfl
        rw [heq]
        exact controllers.findId_media_after_upd db.media m.ID m _ hm2 rfl
      · intro i j hin
        unfold controllers.deleteJobEffects at hin
        split at hin <;> simp at hin

namespace dlsvc

lemma hasIndiv_append (k : String) (l1 l2 : List DLEffect) :
    hasIndiv k (l1 ++ l2) = (hasIndiv k l1 || hasIndiv k l2) := by
  simp [hasIndiv, List.any_append]

lemma hasPack_append (k : String) (l1 l2 : List DLEffect) :
    hasPack k (l1 ++ l2) = (hasPack k l1 || hasPack k l2) := by
  simp [hasPack, List.any_append]

lemma ok_append_singleton (l : List DLEffect) (e : DLEffect)
    (h : packBeforeIndivOk l = true)
    (hnew : ∀ k, effIsIndiv k e = true → hasPack k l = false) :
    packBeforeIndivOk (l ++ [e]) = true := by
  induction l with
  | nil =>
    rcases e with ⟨t, tid, sk, p⟩
    rcases sk with _ | k
    · simp [packBeforeIndivOk, headOk]
    · cases p
      · simp [packBeforeIndivOk, headOk]
      · simp [packBeforeIndivOk, headOk, hasIndiv]
  | cons x xs ih =>
    rw [List.cons_append]
    unfold packBeforeIndivOk at h ⊢
    rw [Bool.and_eq_true] at h
    have hxs : packBeforeIndivOk (xs ++ [e]) = true := by
      refine ih h.2 ?_
      intro k hk
      have := hnew k hk
      unfold hasPack at this ⊢
      rw [List.any_cons, Bool.or_eq_false_iff] at this
      exact this.2
    rw [Bool.and_eq_true]
    refine ⟨?_, hxs⟩
    rcases x with ⟨t, tid, sk, p⟩
    rcases sk with _ | k
    · rfl
    · cases p
      · rfl
      · have hhd : headOk (DLEffect.queued t tid (some k) true) xs = true :=
          h.1
        simp only [headOk] at hhd ⊢
        rw [hasIndiv_append]
        rw [Bool.not_eq_true'] at hhd
        rw [hhd]
        have he : effIsIndiv k e = false := by
          by_contra hc
          rw [Bool.not_eq_false] at hc
          have h3 := hnew k hc
          unfold hasPack at h3
          rw [List.any_cons, Bool.or_eq_false_iff] at h3
          have h4 : effIsPack k (DLEffect.queued t tid (some k) true)
              = false := h3.1
          simp [effIsPack] at h4
        simp [hasIndiv, he]

lemma mem_of_subset_cons (k : String) (ks : List String) (x : String)
    (h : k ∈ ks) : k ∈ x :: ks := List.mem_cons_of_mem x h

lemma dlStep_inv (env : DownloadSvcEnv) (s : DLState)
    (media : domain.Media)
    (h1 : ∀ k, hasPack k s.effects = true → k ∈ s.processedSeasons)
    (h2 : packBeforeIndivOk s.effects = true) :
    (∀ k, hasPack k (dlStep env s media).effects = true
       → k ∈ (dlStep env s media).processedSeasons)
    ∧ packBeforeIndivOk (dlStep env s media).effects = true := by
  unfold dlStep
  split
  · exact ⟨h1, h2⟩
  · split
    · exact ⟨h1, h2⟩
    · rename_i hproc
      split
      · exact ⟨h1, h2⟩
      · rename_i nzb hnzb
        split
        · exact ⟨h1, h2⟩
        · split
          · exact ⟨h1, h2⟩
          · split
            · exact ⟨h1, h2⟩
            · split
              · exact ⟨h1, h2⟩
              · constructor
                · intro k hk
                  rw [hasPack_append] at hk
                  rcases Bool.or_eq_true_iff.mp hk with hold | hnewp
                  · have hmem := h1 k hold
                    dsimp only
                    split
                    · exact List.mem_cons_of_mem _ hmem
                    · exact hmem
                  · unfold hasPack at hnewp
                    rw [List.any_cons] at hnewp
                    have hne : effIsPack k (DLEffect.queued nzb.Title
                        media.TraktID
                        (if media.IsEpisode = true
                         then some (seasonKey media) else none)
                        nzb.isSeasonPackDerived) = true := by
                      simpa using hnewp
                    unfold effIsPack at hne
                    rw [Bool.and_eq_true] at hne
                    have hkey :
                        (if media.IsEpisode = true
                         then some (seasonKey media) else none) = some k := by
                      simpa using hne.1
                    by_cases hep : media.IsEpisode = true
                    · rw [if_pos hep] at hkey
                      have hk2 : seasonKey media = k :=
                        Option.some_injective _ hkey
                      dsimp only
                      rw [if_pos (by rw [hep, hne.2]; rfl)]
                      rw [← hk2]
                      exact List.mem_cons_self _ _
                    · rw [if_neg hep] at hkey
                      cases hkey
                · dsimp only
                  refine ok_append_singleton s.effects _ h2 ?_
                  intro k hk
                  unfold effIsIndiv at hk
                  rw [Bool.and_eq_true] at hk
                  have hkey :
                      (if media.IsEpisode = true
                       then some (seasonKey media) else none) = some k := by
                    simpa using hk.1
                  by_cases hep : media.IsEpisode = true
                  · rw [if_pos hep] at hkey
                    have hk2 : seasonKey media = k :=
                      Option.some_injective _ hkey
                    by_contra hc
                    rw [Bool.not_eq_false] at hc
                    have hmem := h1 k hc
                    rw [← hk2] at hmem
                    have hcontra : (media.IsEpisode
                        && s.processedSeasons.contains (seasonKey media))
                        = true := by
                      rw [hep, Bool.true_and]
                      exact List.elem_eq_true_of_mem hmem
                    exact hproc hcontra
                  · rw [if_neg hep] at hkey
                    cases hkey

lemma dlFold_inv (env : DownloadSvcEnv) (l : List domain.Media)
    (s : DLState)
    (h1 : ∀ k, hasPack k s.effects = true → k ∈ s.processedSeasons)
    (h2 : packBeforeIndivOk s.effects = true) :
    packBeforeIndivOk (l.foldl (dlStep env) s).effects = true := by
  induction l generalizing s with
  | nil => exact h2
  | cons x xs ih =>
    rw [List.foldl_cons]
    have := dlStep_inv env s x h1 h2
    exact ih (dlStep env s x) this.1 this.2

lemma ok_split (l : List DLEffect) (h : packBeforeIndivOk l = true) :
    ∀ l1 t tid k l2,
      l = l1 ++ DLEffect.queued t tid (some k) true :: l2 →
      hasIndiv k l2 = false := by
  induction l with
  | nil =>
    intro l1 t tid k l2 he
    exact absurd he (by simp)
  | cons x xs ih =>
    intro l1 t tid k l2 he
    unfold packBeforeIndivOk at h
    rw [Bool.and_eq_true] at h
    rcases l1 with _ | ⟨y, l1'⟩
    · rw [List.nil_append] at he
      injection he with hx hxs
      subst hx
      subst hxs
      have := h.1
      unfold headOk at this
      rw [Bool.not_eq_true'] at this
      exact this
    · rw [List.cons_append] at he
      injection he with hx hxs
      exact ih h.2 l1' t tid k l2 hxs

end dlsvc

/-- C3 amended witness: on the concrete five-candidate store, the `failed`
webhook for job `j1` marks NZB 1 failed with the reported reason and
retry count 1. -/
theorem c3_amended_failed_webhook_witness :
    controllers.GetNZBByTorBoxJobID c3DB "j1" = some (whNZB 1 "j1" .downloading)
    ∧ controllers.GetNZBByID
        (controllers.HandleWebhook whEnv c3DB "j1" "failed" "e").1 1
      = some (controllers.failedNZB (whNZB 1 "j1" .downloading) "e") :=
  ⟨by decide,
   (c3_amended_failed_webhook whEnv c3DB "j1" "e" (whNZB 1 "j1" .downloading)
      whMedia (by decide) (by decide) rfl (by decide)
      (fun i => rfl) (fun i => rfl) (fun i => rfl)).1⟩

/-- C4: within a single `DownloadMedia` cycle, once a season-pack NZB has
been enqueued for a season key `imdb_S<season>`, no individual (non-pack)
episode NZB of the same key is enqueued later in that cycle: the pack
enqueue records the key in `processedSeasons`, and every later episode of
the key is skipped at the deduplication check. -/
theorem c4_season_pack_dedup (env : dlsvc.DownloadSvcEnv)
    (mediaList : List domain.Media) (l1 l2 : List dlsvc.DLEffect)
    (title : String) (tid : Int) (k : String)
    (h : (dlsvc.DownloadMedia env mediaList).effects
        = l1 ++ dlsvc.DLEffect.queued title tid (some k) true :: l2) :
    dlsvc.hasIndiv k l2 = false :=
  dlsvc.ok_split _
    (dlsvc.dlFold_inv env mediaList ⟨[], [], 0, []⟩
      (fun k hk => by simp [dlsvc.hasPack] at hk) rfl)
    l1 title tid k l2 h

/-- C4 witness: on a concrete two-episode list sharing `(tt1, season 2)`
with a season pack available, the cycle enqueues the pack once and the
theorem applies to its trace. -/

theorem c4_season_pack_dedup_witness :
    (dlsvc.DownloadMedia c4Env [c4Media1, c4Media2]).effects
      = [] ++ dlsvc.DLEffect.queued "Pack" 11 (some "tt1_S2") true :: []
    ∧ dlsvc.hasIndiv "tt1_S2" [] = false :=
  ⟨by decide,
   c4_season_pack_dedup c4Env [c4Media1, c4Media2] [] [] "Pack" 11 "tt1_S2"
     (by decide)⟩

end Gomenarr
